import Mathlib

/-!
Verification development for the t86 debugger core.

The definitions below are shallow embeddings of the C++ sources:

* `src/t86/common/parser.h`          — assembly lexer and parser,
* `src/t86/debugger/Native.h`        — native control layer,
* `src/t86/debugger/Source/Source.cpp` — type reconstruction.

Machine integers are modelled as `Nat`/`Int` with explicit wrapping where
the C++ performs modular arithmetic (`uint64_t`, `int64_t`).  Fallible
code is modelled with `Except`.  Loops that are not structurally
recursive carry an explicit fuel argument; fuel exhaustion is a distinct
error value that does not occur on any input considered in the theorems.
-/

set_option maxHeartbeats 1000000

/-! ## Machine-integer helpers -/

/-- Reinterpret an `int64_t` value as `uint64_t` (used by `GetIP`). -/
def u64ofInt (i : Int) : Nat := (i % (18446744073709551616 : Int)).toNat

/-- Subtraction of 1 on `uint64_t` (used for `GetIP() - 1`). -/
def u64sub1 (n : Nat) : Nat := (n + 18446744073709551615) % 18446744073709551616

/-- Wrap an unbounded integer into the `int64_t` range. -/
def wrap64s (i : Int) : Int :=
  (i + 9223372036854775808) % 18446744073709551616 - 9223372036854775808

/-! ## Errors of the assembly lexer/parser

`parserErrorLoc` is a `ParserError` built through `Parser::CreateError`
(or the lexer's located error), which embeds `row:col`.  `parserErrorPlain`
is a `ParserError` built from a bare message, with no location.
`stoiInvalidArgument`/`stoiOutOfRange` model the exceptions that
`std::stoi` raises and `stodInvalidArgument` those of `std::stod`;
`unreachableMark`/`notImplementedMark` model the `UNREACHABLE` and
`NOT_IMPLEMENTED` aborts.  `fuelExhausted` is an artifact of the fueled
embedding and is never produced on the inputs appearing in the theorems. -/
inductive PErr where
  | parserErrorLoc (row col : Nat) (msg : String)
  | parserErrorPlain (msg : String)
  | stoiInvalidArgument
  | stoiOutOfRange
  | stodInvalidArgument
  | unreachableMark
  | notImplementedMark
  | fuelExhausted
deriving DecidableEq

/-! ## Tokens -/

inductive TokenKind where
  | ID | DOT | NUM | LBRACKET | RBRACKET | END | SEMICOLON
  | PLUS | TIMES | COMMA | STRING | FLOAT
deriving DecidableEq

structure Token where
  kind : TokenKind
  row : Nat
  col : Nat
deriving DecidableEq

/-- Character classes of the C locale used via `<cctype>`. -/
def isSpaceC (c : Char) : Bool :=
  c = ' ' || c = '\t' || c = '\n' || c = '\x0b' || c = '\x0c' || c = '\r'

def isDigitC (c : Char) : Bool := 48 ≤ c.toNat && c.toNat ≤ 57

def isAlphaC (c : Char) : Bool :=
  (65 ≤ c.toNat && c.toNat ≤ 90) || (97 ≤ c.toNat && c.toNat ≤ 122)

def isAlnumC (c : Char) : Bool := isDigitC c || isAlphaC c

/-- Decimal value of a digit string. -/
def decValue (l : List Char) : Nat :=
  l.foldl (fun a c => 10 * a + (c.toNat - 48)) 0

/-- Model of `std::stoi`: skip leading whitespace, optional sign, then
digits; `invalid_argument` when no digits are found, `out_of_range` when
the value does not fit in a C `int`. -/
def stoiModel (cs : List Char) : Except PErr Int :=
  let cs1 := cs.dropWhile isSpaceC
  let sign : Int := if cs1.head? = some '-' then -1 else 1
  let cs2 := if cs1.head? = some '-' ∨ cs1.head? = some '+' then cs1.tail else cs1
  let digs := cs2.takeWhile isDigitC
  if digs = [] then .error .stoiInvalidArgument
  else if sign * (decValue digs : Int) < -2147483648 ∨
          (2147483647 : Int) < sign * (decValue digs : Int) then .error .stoiOutOfRange
  else .ok (sign * (decValue digs : Int))

/-- Model of `std::atoi` on the register-number suffix: leading digits,
no exception, 0 if none.  (Overflow, undefined for `atoi`, is modelled as
the unbounded value; register numbers in practice are tiny.) -/
def atoiNat (cs : List Char) : Nat := decValue (cs.takeWhile isDigitC)

/-- Model of `std::stod`, only to the extent the parser observes it: the
float literal's text is kept, and `invalid_argument` is raised when no
numeric prefix exists.  No claim observes float values. -/
def stodModel (cs : List Char) : Except PErr (List Char) :=
  let cs1 := cs.dropWhile isSpaceC
  let cs2 := if cs1.head? = some '-' ∨ cs1.head? = some '+' then cs1.tail else cs1
  if (cs2.takeWhile (fun c => isDigitC c || c = '.')).any isDigitC then .ok cs
  else .error .stodInvalidArgument

/-! ## Lexer state

Mirrors the field list of class `Lexer`.  `lookahead = none` models the
`EOF` sentinel.  String-ish accumulators are kept as `List Char`. -/
structure LexState where
  input : List Char
  lookahead : Option Char
  row : Nat
  col : Nat
  tok_row : Nat
  tok_col : Nat
  number : Int
  float_lit : List Char
  id : String
  str : String

/-- `Lexer::GetChar`: update `row`/`col` from the current lookahead, then
pull the next character (or EOF) from the stream. -/
def Lexer.getChar (st : LexState) : LexState :=
  let row := if st.lookahead = some '\n' then st.row + 1 else st.row
  let col := if st.lookahead = some '\n' then 0 else st.col + 1
  { st with row := row, col := col,
            lookahead := st.input.head?, input := st.input.tail }

/-- `Lexer::RecordTokLoc`. -/
def Lexer.recordTokLoc (st : LexState) : LexState :=
  { st with tok_row := st.row, tok_col := st.col }

/-- `Lexer::MakeToken`. -/
def Lexer.makeToken (kind : TokenKind) (st : LexState) : Token :=
  ⟨kind, st.tok_row, st.tok_col⟩

/-- The loop of `Lexer::ParseString` (the part after `str.clear()`),
accumulating into `acc`. -/
def Lexer.parseStringF : Nat → LexState → String → Except PErr LexState
  | 0, _, _ => .error .fuelExhausted
  | fuel + 1, st, acc =>
    let st1 := Lexer.getChar st
    if st1.lookahead = some '"' then
      .ok { Lexer.getChar st1 with str := acc }
    else
      match st1.lookahead with
      | none => .error (.parserErrorPlain "Unterminated string!")
      | some c =>
        if c = '\\' then
          let st2 := Lexer.getChar st1
          match st2.lookahead with
          | some 'n' => Lexer.parseStringF fuel st2 (acc.push '\n')
          | some 't' => Lexer.parseStringF fuel st2 (acc.push '\t')
          | some '\\' => Lexer.parseStringF fuel st2 (acc.push '\\')
          | some '"' => Lexer.parseStringF fuel st2 (acc.push '"')
          | _ => .error (.parserErrorPlain "Unknown escape sequence")
        else Lexer.parseStringF fuel st1 (acc.push c)

/-- The scanning loop of `Lexer::ParseNumber`: after the first character
has been seeded into `num`, keep consuming digits, with `.` switching to
float mode, stopping at the first other character. -/
def Lexer.parseNumberScanF :
    Nat → LexState → List Char → Bool → Except PErr (LexState × List Char × Bool)
  | 0, _, _, _ => .error .fuelExhausted
  | fuel + 1, st, num, isf =>
    let st1 := Lexer.getChar st
    match st1.lookahead with
    | some c =>
      if c = '.' then Lexer.parseNumberScanF fuel st1 (num ++ [c]) true
      else if isDigitC c then Lexer.parseNumberScanF fuel st1 (num ++ [c]) isf
      else .ok (st1, num, isf)
    | none => .ok (st1, num, isf)

/-- `Lexer::ParseNumber`.  The C++ seeds `num` with the lookahead
character; when the lookahead is already EOF (input `"-"` at end of
stream) the C++ appends the EOF sentinel, and `std::stoi` rejects the
result either way, so the seed is modelled as empty in that case. -/
def Lexer.parseNumberF (fuel : Nat) (st : LexState) :
    Except PErr (TokenKind × LexState) :=
  let neg : Int := if st.lookahead = some '-' then -1 else 1
  let st0 := if st.lookahead = some '-' then Lexer.getChar st else st
  let first : List Char := match st0.lookahead with
    | some c => [c]
    | none => []
  match Lexer.parseNumberScanF fuel st0 first false with
  | .error e => .error e
  | .ok (st1, num, isf) =>
    if isf then
      match stodModel num with
      | .error e => .error e
      | .ok f => .ok (.FLOAT, { st1 with float_lit := f })
    else
      match stoiModel num with
      | .error e => .error e
      | .ok v => .ok (.NUM, { st1 with number := neg * v })

/-- The scanning loop of `Lexer::ParseIdentifier`. -/
def Lexer.parseIdentScanF :
    Nat → LexState → List Char → Except PErr (LexState × List Char)
  | 0, _, _ => .error .fuelExhausted
  | fuel + 1, st, acc =>
    let st1 := Lexer.getChar st
    match st1.lookahead with
    | some c =>
      if isAlnumC c || c = '_' then Lexer.parseIdentScanF fuel st1 (acc ++ [c])
      else .ok (st1, acc)
    | none => .ok (st1, acc)

/-- The comment-skipping loop at the top of `Lexer::getNext`. -/
def Lexer.skipCommentF : Nat → LexState → Except PErr LexState
  | 0, _ => .error .fuelExhausted
  | fuel + 1, st =>
    match st.lookahead with
    | none => .ok st
    | some c => if c = '\n' then .ok st else Lexer.skipCommentF fuel (Lexer.getChar st)

/-- `Lexer::getNext`. -/
def Lexer.getNextF : Nat → LexState → Except PErr (Token × LexState)
  | 0, _ => .error .fuelExhausted
  | fuel + 1, st =>
    if st.lookahead = some '#' then
      match Lexer.skipCommentF (fuel + 1) st with
      | .error e => .error e
      | .ok st1 =>
        let st2 := if st1.lookahead = some '\n' then Lexer.getChar st1 else st1
        Lexer.getNextF fuel st2
    else if (st.lookahead.map isSpaceC).getD false then
      Lexer.getNextF fuel (Lexer.getChar st)
    else
      let st := Lexer.recordTokLoc st
      match st.lookahead with
      | none => .ok (Lexer.makeToken .END st, st)
      | some c =>
        if c = ';' then .ok (Lexer.makeToken .SEMICOLON st, Lexer.getChar st)
        else if c = ',' then .ok (Lexer.makeToken .COMMA st, Lexer.getChar st)
        else if c = '[' then .ok (Lexer.makeToken .LBRACKET st, Lexer.getChar st)
        else if c = ']' then .ok (Lexer.makeToken .RBRACKET st, Lexer.getChar st)
        else if c = '+' then .ok (Lexer.makeToken .PLUS st, Lexer.getChar st)
        else if c = '*' then .ok (Lexer.makeToken .TIMES st, Lexer.getChar st)
        else if c = '.' then .ok (Lexer.makeToken .DOT st, Lexer.getChar st)
        else if c = '"' then
          match Lexer.parseStringF (fuel + 1) st "" with
          | .error e => .error e
          | .ok st1 => .ok (Lexer.makeToken .STRING st1, st1)
        else if isDigitC c || c = '-' then
          match Lexer.parseNumberF (fuel + 1) st with
          | .error e => .error e
          | .ok (k, st1) => .ok (Lexer.makeToken k st1, st1)
        else if isAlphaC c || c = '_' then
          match Lexer.parseIdentScanF (fuel + 1) st [c] with
          | .error e => .error e
          | .ok (st1, acc) =>
            let st2 := { st1 with id := String.mk acc }
            .ok (Lexer.makeToken .ID st2, st2)
        else .error (.parserErrorLoc st.row st.col "No token beginning with this")

/-! ## The t86 program representation

Modelled from the spec: the `tiny::t86` instruction and operand headers
are not under `src/`; the operand forms are the ten enumerated in the
spec's data model and the parser's `Mem(...)` constructions, and the
instruction list is the mnemonic table of the parser. -/

inductive Reg where
  | bp | sp | ip
  | gp (n : Nat)
deriving DecidableEq

inductive Operand where
  | reg (r : Reg)
  | imm (i : Int)
  | regOffset (r : Reg) (i : Int)
  | memImm (i : Int)
  | memReg (r : Reg)
  | memRegImm (r : Reg) (i : Int)
  | memRegReg (r1 r2 : Reg)
  | memRegRegScaled (r1 r2 : Reg) (s : Int)
  | memRegImmReg (r1 : Reg) (i : Int) (r2 : Reg)
  | memRegImmRegScaled (r1 : Reg) (i : Int) (r2 : Reg) (s : Int)
  | memRegScaled (r : Reg) (s : Int)
deriving DecidableEq

inductive Instruction where
  | MOV (dst src : Operand)
  | LEA (dst : Reg) (src : Operand)
  | ADD (dst : Reg) (src : Operand)
  | SUB (dst : Reg) (src : Operand)
  | MUL (dst : Reg) (src : Operand)
  | DIV (dst : Reg) (src : Operand)
  | IMUL (dst : Reg) (src : Operand)
  | IDIV (dst : Reg) (src : Operand)
  | AND (dst : Reg) (src : Operand)
  | OR (dst : Reg) (src : Operand)
  | XOR (dst : Reg) (src : Operand)
  | LSH (dst : Reg) (src : Operand)
  | RSH (dst : Reg) (src : Operand)
  | CMP (dst : Reg) (src : Operand)
  | LOOP (dst : Reg) (src : Operand)
  | INC (r : Reg)
  | DEC (r : Reg)
  | NEG (r : Reg)
  | NOT (r : Reg)
  | JMP (t : Operand)
  | JZ (t : Operand)
  | JNZ (t : Operand)
  | JE (t : Operand)
  | JNE (t : Operand)
  | JG (t : Operand)
  | JGE (t : Operand)
  | JL (t : Operand)
  | JLE (t : Operand)
  | JA (t : Operand)
  | JAE (t : Operand)
  | JB (t : Operand)
  | JBE (t : Operand)
  | JO (t : Operand)
  | JNO (t : Operand)
  | JS (t : Operand)
  | JNS (t : Operand)
  | CALL (t : Operand)
  | PUSH (t : Operand)
  | POP (r : Reg)
  | PUTCHAR (r : Reg)
  | PUTNUM (r : Reg)
  | GETCHAR (r : Reg)
  | HALT
  | NOP
  | BKPT
  | BREAK
  | RET
deriving DecidableEq

/-- `tiny::t86::Program`: instruction list plus data section of 64-bit
signed words. -/
structure ParseResult where
  program : List Instruction
  dataSec : List Int
deriving DecidableEq

/-! ## Parser state -/

structure PState where
  lex : LexState
  curtok : Token
  program : List Instruction
  dataSec : List Int

/-- `Parser::GetNext` (with the parser state threaded). -/
def Parser.GetNextP (fuel : Nat) (st : PState) : Except PErr (TokenKind × PState) :=
  match Lexer.getNextF fuel st.lex with
  | .error e => .error e
  | .ok (tok, lex1) => .ok (tok.kind, { st with lex := lex1, curtok := tok })

/-- A `ParserError` via `Parser::CreateError`, which prefixes the current
token's `row:col`. -/
def Parser.locErr (st : PState) (msg : String) : PErr :=
  .parserErrorLoc st.curtok.row st.curtok.col msg

/-- `Parser::getRegister`. -/
def Parser.getRegisterP (st : PState) (regname : String) : Except PErr Reg :=
  if regname = "BP" then .ok .bp
  else if regname = "SP" then .ok .sp
  else if regname = "IP" then .ok .ip
  else if regname.toList.head? ≠ some 'R' then
    .error (Parser.locErr st "Registers must begin with an R, unless IP, BP or SP")
  else .ok (.gp (atoiNat regname.toList.tail))

/-- `Parser::Register`. -/
def Parser.RegisterP (fuel : Nat) (st : PState) : Except PErr (Reg × PState) :=
  if st.curtok.kind = TokenKind.ID then
    let regname := st.lex.id
    match Parser.getRegisterP st regname with
    | .error e => .error e
    | .ok reg =>
      match Parser.GetNextP fuel st with
      | .error e => .error e
      | .ok (_, st1) => .ok (reg, st1)
  else .error (Parser.locErr st "Expected R")

/-- `Parser::Imm`. -/
def Parser.ImmP (fuel : Nat) (st : PState) : Except PErr (Int × PState) :=
  if st.curtok.kind = TokenKind.NUM then
    let val := st.lex.number
    match Parser.GetNextP fuel st with
    | .error e => .error e
    | .ok (_, st1) => .ok (val, st1)
  else .error (Parser.locErr st "Expected i")

/-- `Parser::ImmOrRegister`. -/
def Parser.ImmOrRegisterP (fuel : Nat) (st : PState) : Except PErr (Operand × PState) :=
  if st.curtok.kind = TokenKind.ID then
    match Parser.RegisterP fuel st with
    | .error e => .error e
    | .ok (r, st1) => .ok (.reg r, st1)
  else if st.curtok.kind = TokenKind.NUM then
    match Parser.ImmP fuel st with
    | .error e => .error e
    | .ok (v, st1) => .ok (.imm v, st1)
  else .error (Parser.locErr st "Expected either i or R")

/-- `Parser::SimpleMemory`.  Note that in the `[R + i]` case the source
returns without consuming the closing `]`, unlike the two sibling
branches. -/
def Parser.SimpleMemoryP (fuel : Nat) (st : PState) : Except PErr (Operand × PState) :=
  if st.curtok.kind = TokenKind.LBRACKET then
    match Parser.GetNextP fuel st with
    | .error e => .error e
    | .ok (k1, st1) =>
      if k1 = TokenKind.ID then
        match Parser.RegisterP fuel st1 with
        | .error e => .error e
        | .ok (inner, st2) =>
          if st2.curtok.kind = TokenKind.PLUS then
            match Parser.GetNextP fuel st2 with
            | .error e => .error e
            | .ok (_, st3) =>
              match Parser.ImmP fuel st3 with
              | .error e => .error e
              | .ok (imm, st4) =>
                if st4.curtok.kind ≠ TokenKind.RBRACKET then
                  .error (Parser.locErr st4 "Expected end of bracket")
                else .ok (.memRegImm inner imm, st4)
          else if st2.curtok.kind ≠ TokenKind.RBRACKET then
            .error (Parser.locErr st2 "Expected end of bracket")
          else
            match Parser.GetNextP fuel st2 with
            | .error e => .error e
            | .ok (_, st3) => .ok (.memReg inner, st3)
      else
        match Parser.ImmP fuel st1 with
        | .error e => .error e
        | .ok (inner, st2) =>
          if st2.curtok.kind ≠ TokenKind.RBRACKET then
            .error (Parser.locErr st2 "Expected end of bracket")
          else
            match Parser.GetNextP fuel st2 with
            | .error e => .error e
            | .ok (_, st3) => .ok (.memImm inner, st3)
  else .error (Parser.locErr st "Expected a simple memory operand")

/-- `Parser::RegisterOrSimpleMemory`. -/
def Parser.RegisterOrSimpleMemoryP (fuel : Nat) (st : PState) :
    Except PErr (Operand × PState) :=
  if st.curtok.kind = TokenKind.ID then
    match Parser.RegisterP fuel st with
    | .error e => .error e
    | .ok (r, st1) => .ok (.reg r, st1)
  else if st.curtok.kind = TokenKind.LBRACKET then
    Parser.SimpleMemoryP fuel st
  else .error (Parser.locErr st "Expected either R or a simple memory operand")

/-- `Parser::ImmOrRegisterOrSimpleMemory`. -/
def Parser.ImmOrRegisterOrSimpleMemoryP (fuel : Nat) (st : PState) :
    Except PErr (Operand × PState) :=
  if st.curtok.kind = TokenKind.ID ∨ st.curtok.kind = TokenKind.NUM then
    Parser.ImmOrRegisterP fuel st
  else if st.curtok.kind = TokenKind.LBRACKET then
    Parser.SimpleMemoryP fuel st
  else .error (Parser.locErr st "Expected either i, R or a simple memory operand")

/-- `Parser::Operand`, the full MOV operand grammar, including its
`UNREACHABLE`/`NOT_IMPLEMENTED` abort paths and the blind token
consumption in the `[imm]` branch. -/
def Parser.OperandP (fuel : Nat) (st : PState) : Except PErr (Operand × PState) :=
  if st.curtok.kind = TokenKind.ID then
    let regname := st.lex.id
    match Parser.GetNextP fuel st with
    | .error e => .error e
    | .ok (k1, st1) =>
      if k1 = TokenKind.PLUS then
        match Parser.GetNextP fuel st1 with
        | .error e => .error e
        | .ok (k2, st2) =>
          if k2 ≠ TokenKind.NUM then
            .error (Parser.locErr st2 "After Reg + _ there can be only number")
          else
            let imm := st2.lex.number
            match Parser.GetNextP fuel st2 with
            | .error e => .error e
            | .ok (_, st3) =>
              match Parser.getRegisterP st3 regname with
              | .error e => .error e
              | .ok r => .ok (.regOffset r imm, st3)
      else
        match Parser.getRegisterP st1 regname with
        | .error e => .error e
        | .ok r => .ok (.reg r, st1)
  else if st.curtok.kind = TokenKind.NUM then
    let imm := st.lex.number
    match Parser.GetNextP fuel st with
    | .error e => .error e
    | .ok (_, st1) => .ok (.imm imm, st1)
  else if st.curtok.kind = TokenKind.LBRACKET then
    match Parser.GetNextP fuel st with
    | .error e => .error e
    | .ok (k1, st1) =>
      if k1 = TokenKind.NUM then
        let val := st1.lex.number
        match Parser.GetNextP fuel st1 with
        | .error e => .error e
        | .ok (_, st2) =>
          match Parser.GetNextP fuel st2 with
          | .error e => .error e
          | .ok (_, st3) => .ok (.memImm (Int.ofNat (u64ofInt val)), st3)
      else if st1.curtok.kind = TokenKind.ID then
        match Parser.getRegisterP st1 st1.lex.id with
        | .error e => .error e
        | .ok reg =>
          match Parser.GetNextP fuel st1 with
          | .error e => .error e
          | .ok (k2, st2) =>
            if k2 = TokenKind.RBRACKET then
              match Parser.GetNextP fuel st2 with
              | .error e => .error e
              | .ok (_, st3) => .ok (.memReg reg, st3)
            else if st2.curtok.kind = TokenKind.PLUS then
              match Parser.GetNextP fuel st2 with
              | .error e => .error e
              | .ok (k3, st3) =>
                if k3 = TokenKind.ID then
                  match Parser.getRegisterP st3 st3.lex.id with
                  | .error e => .error e
                  | .ok reg2 =>
                    match Parser.GetNextP fuel st3 with
                    | .error e => .error e
                    | .ok (k4, st4) =>
                      if k4 = TokenKind.RBRACKET then
                        match Parser.GetNextP fuel st4 with
                        | .error e => .error e
                        | .ok (_, st5) => .ok (.memRegReg reg reg2, st5)
                      else if st4.curtok.kind = TokenKind.TIMES then
                        match Parser.GetNextP fuel st4 with
                        | .error e => .error e
                        | .ok (k5, st5) =>
                          if k5 = TokenKind.NUM then
                            let val := st5.lex.number
                            match Parser.GetNextP fuel st5 with
                            | .error e => .error e
                            | .ok (k6, st6) =>
                              if k6 ≠ TokenKind.RBRACKET then
                                .error (.parserErrorPlain
                                  "Expected closing bracket of dereference")
                              else .ok (.memRegRegScaled reg reg2 val, st6)
                          else .error .unreachableMark
                      else .error .unreachableMark
                else if st3.curtok.kind = TokenKind.NUM then
                  let val := st3.lex.number
                  match Parser.GetNextP fuel st3 with
                  | .error e => .error e
                  | .ok (k4, st4) =>
                    if k4 = TokenKind.RBRACKET then
                      match Parser.GetNextP fuel st4 with
                      | .error e => .error e
                      | .ok (_, st5) => .ok (.memRegImm reg val, st5)
                    else if st4.curtok.kind ≠ TokenKind.PLUS then
                      .error (.parserErrorPlain
                        "Dereference of form [R1 + i ...] must always contain + R after i")
                    else
                      match Parser.GetNextP fuel st4 with
                      | .error e => .error e
                      | .ok (k5, st5) =>
                        if k5 ≠ TokenKind.ID then
                          .error (.parserErrorPlain
                            "Dereference of form [R1 + i ...] must always contain + R after i")
                        else
                          match Parser.getRegisterP st5 st5.lex.id with
                          | .error e => .error e
                          | .ok reg2 =>
                            match Parser.GetNextP fuel st5 with
                            | .error e => .error e
                            | .ok (k6, st6) =>
                              if k6 = TokenKind.RBRACKET then
                                match Parser.GetNextP fuel st6 with
                                | .error e => .error e
                                | .ok (_, st7) => .ok (.memRegImmReg reg val reg2, st7)
                              else if st6.curtok.kind ≠ TokenKind.TIMES then
                                .error (.parserErrorPlain
                                  "After [R1 + i + R2 there must always be a times or bracket")
                              else
                                match Parser.GetNextP fuel st6 with
                                | .error e => .error e
                                | .ok (k7, st7) =>
                                  if k7 ≠ TokenKind.NUM then
                                    .error (.parserErrorPlain
                                      "After [R1 + i + R2 times there must always be an imm")
                                  else
                                    let val2 := st7.lex.number
                                    match Parser.GetNextP fuel st7 with
                                    | .error e => .error e
                                    | .ok (k8, st8) =>
                                      if k8 ≠ TokenKind.RBRACKET then
                                        .error (.parserErrorPlain
                                          "Expected closing bracket of dereference")
                                      else
                                        match Parser.GetNextP fuel st8 with
                                        | .error e => .error e
                                        | .ok (_, st9) =>
                                          .ok (.memRegImmRegScaled reg val reg2 val2, st9)
                else .error .unreachableMark
            else if st2.curtok.kind = TokenKind.TIMES then
              match Parser.GetNextP fuel st2 with
              | .error e => .error e
              | .ok (k3, st3) =>
                if k3 ≠ TokenKind.NUM then
                  .error (.parserErrorPlain "After [R1 times ...] there must always be an imm")
                else
                  let val := st3.lex.number
                  match Parser.GetNextP fuel st3 with
                  | .error e => .error e
                  | .ok (k4, st4) =>
                    if k4 ≠ TokenKind.RBRACKET then
                      .error (.parserErrorPlain "Expected closing bracket of dereference")
                    else
                      match Parser.GetNextP fuel st4 with
                      | .error e => .error e
                      | .ok (_, st5) => .ok (.memRegScaled reg val, st5)
            else .error .unreachableMark
      else .error .notImplementedMark
  else .error .unreachableMark

/-- The body of the `PARSE_BINARY` macro: a register destination, a
comma, then a source parsed by `fromParse`. -/
def Parser.binaryRegP (fuel : Nat) (st : PState)
    (fromParse : Nat → PState → Except PErr (Operand × PState))
    (mk : Reg → Operand → Instruction) : Except PErr (Instruction × PState) :=
  match Parser.RegisterP fuel st with
  | .error e => .error e
  | .ok (dest, st1) =>
    if st1.curtok.kind ≠ TokenKind.COMMA then .error (Parser.locErr st1 "Expected a comma")
    else
      match Parser.GetNextP fuel st1 with
      | .error e => .error e
      | .ok (_, st2) =>
        match fromParse fuel st2 with
        | .error e => .error e
        | .ok (src, st3) => .ok (mk dest src, st3)

/-- The body of the `PARSE_UNARY` macro for register operands. -/
def Parser.unaryRegP (fuel : Nat) (st : PState) (mk : Reg → Instruction) :
    Except PErr (Instruction × PState) :=
  match Parser.RegisterP fuel st with
  | .error e => .error e
  | .ok (r, st1) => .ok (mk r, st1)

/-- The body of the `PARSE_UNARY` macro for general-operand parsers. -/
def Parser.unaryOpP (fuel : Nat) (st : PState)
    (opParse : Nat → PState → Except PErr (Operand × PState))
    (mk : Operand → Instruction) : Except PErr (Instruction × PState) :=
  match opParse fuel st with
  | .error e => .error e
  | .ok (op, st1) => .ok (mk op, st1)

/-- `Parser::Instruction`.  The second `PARSE_BINARY(LEA, Register,
Operand)` of the source is dead code (the earlier `ins_name == "LEA"`
branch shadows it) and is omitted.  `dest.getRegister()` in the LEA
branch is modelled as a fatal abort on non-register operands (the t86
operand headers are not under `src/`). -/
def Parser.InstructionP (fuel : Nat) (st : PState) :
    Except PErr (Instruction × PState) :=
  let step1 : Except PErr PState :=
    if st.curtok.kind = TokenKind.NUM then
      match Parser.GetNextP fuel st with
      | .error e => .error e
      | .ok (_, st') => .ok st'
    else .ok st
  match step1 with
  | .error e => .error e
  | .ok st =>
    if st.curtok.kind ≠ TokenKind.ID then
      .error (.parserErrorPlain "Expected register name")
    else
      let ins_name := st.lex.id
      match Parser.GetNextP fuel st with
      | .error e => .error e
      | .ok (_, st1) =>
        if ins_name = "MOV" then
          match Parser.OperandP fuel st1 with
          | .error e => .error e
          | .ok (dest, st2) =>
            if st2.curtok.kind ≠ TokenKind.COMMA then
              .error (Parser.locErr st2 "Expected a comma")
            else
              match Parser.GetNextP fuel st2 with
              | .error e => .error e
              | .ok (_, st3) =>
                match Parser.OperandP fuel st3 with
                | .error e => .error e
                | .ok (src, st4) => .ok (.MOV dest src, st4)
        else if ins_name = "LEA" then
          match Parser.OperandP fuel st1 with
          | .error e => .error e
          | .ok (dest, st2) =>
            if st2.curtok.kind ≠ TokenKind.COMMA then
              .error (Parser.locErr st2 "Expected a comma")
            else
              match Parser.GetNextP fuel st2 with
              | .error e => .error e
              | .ok (_, st3) =>
                match Parser.OperandP fuel st3 with
                | .error e => .error e
                | .ok (src, st4) =>
                  match dest with
                  | .reg r => .ok (.LEA r src, st4)
                  | _ => .error (.parserErrorPlain "getRegister on non-register operand")
        else if ins_name = "ADD" then
          Parser.binaryRegP fuel st1 Parser.ImmOrRegisterOrSimpleMemoryP .ADD
        else if ins_name = "SUB" then
          Parser.binaryRegP fuel st1 Parser.ImmOrRegisterOrSimpleMemoryP .SUB
        else if ins_name = "MUL" then
          Parser.binaryRegP fuel st1 Parser.ImmOrRegisterOrSimpleMemoryP .MUL
        else if ins_name = "DIV" then
          Parser.binaryRegP fuel st1 Parser.ImmOrRegisterOrSimpleMemoryP .DIV
        else if ins_name = "IMUL" then
          Parser.binaryRegP fuel st1 Parser.ImmOrRegisterOrSimpleMemoryP .IMUL
        else if ins_name = "IDIV" then
          Parser.binaryRegP fuel st1 Parser.ImmOrRegisterOrSimpleMemoryP .IDIV
        else if ins_name = "AND" then
          Parser.binaryRegP fuel st1 Parser.ImmOrRegisterOrSimpleMemoryP .AND
        else if ins_name = "OR" then
          Parser.binaryRegP fuel st1 Parser.ImmOrRegisterOrSimpleMemoryP .OR
        else if ins_name = "XOR" then
          Parser.binaryRegP fuel st1 Parser.ImmOrRegisterOrSimpleMemoryP .XOR
        else if ins_name = "LSH" then
          Parser.binaryRegP fuel st1 Parser.ImmOrRegisterOrSimpleMemoryP .LSH
        else if ins_name = "RSH" then
          Parser.binaryRegP fuel st1 Parser.ImmOrRegisterOrSimpleMemoryP .RSH
        else if ins_name = "CMP" then
          Parser.binaryRegP fuel st1 Parser.ImmOrRegisterOrSimpleMemoryP .CMP
        else if ins_name = "LOOP" then
          Parser.binaryRegP fuel st1 Parser.ImmOrRegisterP .LOOP
        else if ins_name = "INC" then Parser.unaryRegP fuel st1 .INC
        else if ins_name = "DEC" then Parser.unaryRegP fuel st1 .DEC
        else if ins_name = "NEG" then Parser.unaryRegP fuel st1 .NEG
        else if ins_name = "NOT" then Parser.unaryRegP fuel st1 .NOT
        else if ins_name = "JMP" then Parser.unaryOpP fuel st1 Parser.ImmOrRegisterP .JMP
        else if ins_name = "JZ" then
          Parser.unaryOpP fuel st1 Parser.ImmOrRegisterOrSimpleMemoryP .JZ
        else if ins_name = "JNZ" then
          Parser.unaryOpP fuel st1 Parser.ImmOrRegisterOrSimpleMemoryP .JNZ
        else if ins_name = "JE" then
          Parser.unaryOpP fuel st1 Parser.ImmOrRegisterOrSimpleMemoryP .JE
        else if ins_name = "JNE" then
          Parser.unaryOpP fuel st1 Parser.ImmOrRegisterOrSimpleMemoryP .JNE
        else if ins_name = "JG" then
          Parser.unaryOpP fuel st1 Parser.ImmOrRegisterOrSimpleMemoryP .JG
        else if ins_name = "JGE" then
          Parser.unaryOpP fuel st1 Parser.ImmOrRegisterOrSimpleMemoryP .JGE
        else if ins_name = "JL" then
          Parser.unaryOpP fuel st1 Parser.ImmOrRegisterOrSimpleMemoryP .JL
        else if ins_name = "JLE" then
          Parser.unaryOpP fuel st1 Parser.ImmOrRegisterOrSimpleMemoryP .JLE
        else if ins_name = "JA" then
          Parser.unaryOpP fuel st1 Parser.ImmOrRegisterOrSimpleMemoryP .JA
        else if ins_name = "JAE" then
          Parser.unaryOpP fuel st1 Parser.ImmOrRegisterOrSimpleMemoryP .JAE
        else if ins_name = "JB" then
          Parser.unaryOpP fuel st1 Parser.ImmOrRegisterOrSimpleMemoryP .JB
        else if ins_name = "JBE" then
          Parser.unaryOpP fuel st1 Parser.ImmOrRegisterOrSimpleMemoryP .JBE
        else if ins_name = "JO" then
          Parser.unaryOpP fuel st1 Parser.ImmOrRegisterOrSimpleMemoryP .JO
        else if ins_name = "JNO" then
          Parser.unaryOpP fuel st1 Parser.ImmOrRegisterOrSimpleMemoryP .JNO
        else if ins_name = "JS" then
          Parser.unaryOpP fuel st1 Parser.ImmOrRegisterOrSimpleMemoryP .JS
        else if ins_name = "JNS" then
          Parser.unaryOpP fuel st1 Parser.ImmOrRegisterOrSimpleMemoryP .JNS
        else if ins_name = "CALL" then Parser.unaryOpP fuel st1 Parser.ImmOrRegisterP .CALL
        else if ins_name = "PUSH" then Parser.unaryOpP fuel st1 Parser.ImmOrRegisterP .PUSH
        else if ins_name = "POP" then Parser.unaryRegP fuel st1 .POP
        else if ins_name = "PUTCHAR" then Parser.unaryRegP fuel st1 .PUTCHAR
        else if ins_name = "PUTNUM" then Parser.unaryRegP fuel st1 .PUTNUM
        else if ins_name = "GETCHAR" then Parser.unaryRegP fuel st1 .GETCHAR
        else if ins_name = "HALT" then .ok (.HALT, st1)
        else if ins_name = "NOP" then .ok (.NOP, st1)
        else if ins_name = "BKPT" then .ok (.BKPT, st1)
        else if ins_name = "BREAK" then .ok (.BREAK, st1)
        else if ins_name = "RET" then .ok (.RET, st1)
        else if ins_name = "DBG" then
          .error (.parserErrorPlain "DBG instruction is not supported")
        else .error (.parserErrorPlain "Unknown instruction")

/-- `Parser::Text`: the instruction loop.  The semicolon check of the
source is commented out there and hence absent here. -/
def Parser.TextF : Nat → PState → Except PErr PState
  | 0, _ => .error .fuelExhausted
  | fuel + 1, st =>
    if st.curtok.kind = TokenKind.NUM ∨ st.curtok.kind = TokenKind.ID then
      match Parser.InstructionP (fuel + 1) st with
      | .error e => .error e
      | .ok (ins, st1) =>
        Parser.TextF fuel { st1 with program := st1.program ++ [ins] }
    else .ok st

/-- `Parser::Data`. -/
def Parser.DataF : Nat → PState → Except PErr PState
  | 0, _ => .error .fuelExhausted
  | fuel + 1, st =>
    if st.curtok.kind = TokenKind.STRING then
      let st' := { st with dataSec :=
        st.dataSec ++ st.lex.str.toList.map (fun c => (Int.ofNat c.toNat)) }
      match Parser.GetNextP (fuel + 1) st' with
      | .error e => .error e
      | .ok (_, st1) => Parser.DataF fuel st1
    else if st.curtok.kind = TokenKind.NUM then
      let st' := { st with dataSec := st.dataSec ++ [st.lex.number] }
      match Parser.GetNextP (fuel + 1) st' with
      | .error e => .error e
      | .ok (_, st1) => Parser.DataF fuel st1
    else .ok st

/-- The skip-unknown-section loop of `Parser::Section`. -/
def Parser.skipSectionF : Nat → PState → Except PErr PState
  | 0, _ => .error .fuelExhausted
  | fuel + 1, st =>
    if st.curtok.kind ≠ TokenKind.DOT ∧ st.curtok.kind ≠ TokenKind.END then
      match Parser.GetNextP (fuel + 1) st with
      | .error e => .error e
      | .ok (_, st1) => Parser.skipSectionF fuel st1
    else .ok st

/-- `Parser::Section`. -/
def Parser.SectionP (fuel : Nat) (st : PState) : Except PErr PState :=
  if st.curtok.kind ≠ TokenKind.ID then
    .error (.parserErrorPlain "Expected section name")
  else
    let section_name := st.lex.id
    match Parser.GetNextP fuel st with
    | .error e => .error e
    | .ok (_, st1) =>
      if section_name = "text" then Parser.TextF fuel st1
      else if section_name = "data" then Parser.DataF fuel st1
      else Parser.skipSectionF fuel st1

/-- The `while (GetNextPrev() == TokenKind::DOT) Section();` loop of
`Parser::Parse`. -/
def Parser.ParseLoopF : Nat → PState → Except PErr PState
  | 0, _ => .error .fuelExhausted
  | fuel + 1, st =>
    let prev := st.curtok.kind
    match Parser.GetNextP (fuel + 1) st with
    | .error e => .error e
    | .ok (_, st1) =>
      if prev = TokenKind.DOT then
        match Parser.SectionP (fuel + 1) st1 with
        | .error e => .error e
        | .ok st2 => Parser.ParseLoopF fuel st2
      else .ok st

/-- `Parser::Parse`. -/
def Parser.ParseF (fuel : Nat) (st : PState) : Except PErr ParseResult :=
  if st.curtok.kind ≠ TokenKind.DOT then
    .error (.parserErrorPlain "File does not contain any sections")
  else
    match Parser.ParseLoopF fuel st with
    | .error e => .error e
    | .ok st1 => .ok ⟨st1.program, st1.dataSec⟩

/-- End-to-end parse of a source string: the `Lexer`/`Parser`
constructors (initial `lookahead = input.get()` and `curtok =
lex.getNext()`) followed by `Parser::Parse`.  The fuel is an upper bound
on every loop's iteration count for this input. -/
def parseProgram (s : String) : Except PErr ParseResult :=
  let cs := s.toList
  let fuel := cs.length + 16
  let st0 : LexState :=
    { input := cs.tail, lookahead := cs.head?, row := 0, col := 0,
      tok_row := 0, tok_col := 0, number := -1, float_lit := [],
      id := "", str := "" }
  match Lexer.getNextF fuel st0 with
  | .error e => .error e
  | .ok (tok, lex1) =>
    Parser.ParseF fuel { lex := lex1, curtok := tok, program := [], dataSec := [] }

/-! ## Native control layer

Shallow embedding of `src/t86/debugger/Native.h`.  The `Process`
interface, `Arch` helpers and the record types (`Breakpoint.h`,
`Watchpoint.h`, `DebugEvent.h`) are not under `src/`; they are modelled
from the spec (and from their use sites in `Native.h`).

Errors: `debuggerError` models `DebuggerError`; `fatalError` models any
other abnormal termination (`assert`, `std::out_of_range` from
`map::at`/`vector::at`).  Native operations return
`Except NErr α × NState σ`; a C++ exception does not roll back the
mutations already performed, so the state component is meaningful in the
error case as well. -/

inductive NErr where
  | debuggerError (msg : String)
  | fatalError (msg : String)
deriving DecidableEq

/-- Modelled from the spec: software breakpoint record
`{saved_opcode, enabled}`; the saved opcode field is called `data` in
`Native.h`. -/
structure SWBreakpoint where
  data : String
  enabled : Bool
deriving DecidableEq

/-- Modelled from the spec: watchpoint record (kind is always Write);
`hw_reg` is the debug-register index. -/
structure Watchpoint where
  hw_reg : Nat
deriving DecidableEq

/-- Modelled from the spec: the raw stop reasons of the process. -/
inductive StopReason where
  | softwareBreakpointHit | hardwareBreak | singleStep
  | executionEnd | executionBegin
deriving DecidableEq

/-- Modelled from the spec / use sites: `BPType`. -/
inductive BPType where
  | software | hardware
deriving DecidableEq

/-- Modelled from the spec / use sites: `WatchpointType`. -/
inductive WPType where
  | write
deriving DecidableEq

/-- Modelled from the spec: the debug-event variant. -/
inductive DebugEvent where
  | breakpointHit (t : BPType) (address : Nat)
  | watchpointTrigger (t : WPType) (address : Nat)
  | singleStep
  | executionEnd
  | executionBegin
deriving DecidableEq

/-- Modelled from the spec: one hardware debug register (a watched
address and an active flag). -/
structure DebugReg where
  value : Nat
  active : Bool
deriving DecidableEq

/-- Modelled from the spec: `Arch` constants for the T86 machine. -/
def trapOpcode : String := "BKPT"

def debugRegistersCount : Nat := 4

def supportHardwareLevelSingleStep : Bool := true

def supportsHardwareWatchpoints : Bool := true

/-- Helper to rewrite one position of a list. -/
def listSet {α : Type} (l : List α) (i : Nat) (f : α → α) : List α :=
  l.mapIdx (fun j x => if j = i then f x else x)

/-- Modelled from the spec: `Arch::SetDebugRegister`. -/
def archSetDebugRegister (idx addr : Nat) (regs : List DebugReg) : List DebugReg :=
  listSet regs idx (fun r => { r with value := addr })

/-- Modelled from the spec: `Arch::ActivateDebugRegister`. -/
def archActivateDebugRegister (idx : Nat) (regs : List DebugReg) : List DebugReg :=
  listSet regs idx (fun r => { r with active := true })

/-- Modelled from the spec: `Arch::DeactivateDebugRegister`. -/
def archDeactivateDebugRegister (idx : Nat) (regs : List DebugReg) : List DebugReg :=
  listSet regs idx (fun r => { r with active := false })

/-- Modelled from the spec: `Arch::GetResponsibleRegister` locates the
debug register responsible for a hardware break. -/
def archGetResponsibleRegister (regs : List DebugReg) : Nat :=
  regs.findIdx (fun r => r.active)

/-- Modelled from the spec (§4.7): the abstract `Process` interface that
`Native` drives, over an opaque process-state type `σ`.  Reads are
modelled as pure observations; writes, stepping and waiting transform
the state. -/
structure Process (σ : Type) where
  readText : σ → Nat → Nat → Except NErr (List String)
  writeText : σ → Nat → List String → Except NErr σ
  textSize : σ → Nat
  fetchRegisters : σ → List (String × Int)
  setRegisters : σ → List (String × Int) → σ
  fetchDebugRegisters : σ → List DebugReg
  setDebugRegisters : σ → List DebugReg → σ
  doWait : σ → σ
  getReason : σ → StopReason
  resumeExecution : σ → σ
  singleStepCmd : σ → σ

/-- The state owned by a `Native` object: the process handle and the
breakpoint/watchpoint tables plus the cached-event slot.  The
`std::map<uint64_t, SoftwareBreakpoint>` is modelled as a partial map
(`Nat → Option SWBreakpoint`); the watchpoint map is kept as an
association list because `Native` iterates over it. -/
structure NState (σ : Type) where
  proc : σ
  software_breakpoints : Nat → Option SWBreakpoint
  watchpoints : List (Nat × Watchpoint)
  cached_event : Option DebugEvent

/-- Pointwise update of the breakpoint table. -/
def updateBp (f : Nat → Option SWBreakpoint) (a : Nat) (v : Option SWBreakpoint) :
    Nat → Option SWBreakpoint :=
  fun x => if x = a then v else f x

/-- Association-list lookup on the register map. -/
def lookupStr : List (String × Int) → String → Option Int
  | [], _ => none
  | (k, v) :: t, name => if k = name then some v else lookupStr t name

/-- `regs.at(name) = v` on the register map. -/
def updateStr (l : List (String × Int)) (name : String) (v : Int) :
    List (String × Int) :=
  l.map (fun p => if p.1 = name then (p.1, v) else p)

/-- `map::erase` on the watchpoint table. -/
def eraseKey (a : Nat) (l : List (Nat × Watchpoint)) : List (Nat × Watchpoint) :=
  l.filter (fun p => p.1 ≠ a)

/-- `Native::GetRegisters`. -/
def Native.GetRegisters {σ : Type} (P : Process σ) (s : NState σ) :
    List (String × Int) :=
  P.fetchRegisters s.proc

/-- `Native::GetRegister`. -/
def Native.GetRegister {σ : Type} (P : Process σ) (s : NState σ) (name : String) :
    Except NErr Int :=
  match lookupStr (P.fetchRegisters s.proc) name with
  | none => .error (.debuggerError "No such register in target")
  | some v => .ok v

/-- `Native::SetRegisters`. -/
def Native.SetRegisters {σ : Type} (P : Process σ) (s : NState σ)
    (regs : List (String × Int)) : NState σ :=
  { s with proc := P.setRegisters s.proc regs }

/-- `Native::GetIP` (the register name of the T86 program counter is
`"IP"`; the `int64_t` register value is returned as `uint64_t`). -/
def Native.GetIP {σ : Type} (P : Process σ) (s : NState σ) : Except NErr Nat :=
  match Native.GetRegister P s "IP" with
  | .error e => .error e
  | .ok v => .ok (u64ofInt v)

/-- `Native::TextSize`. -/
def Native.TextSize {σ : Type} (P : Process σ) (s : NState σ) : Nat :=
  P.textSize s.proc

/-- `Native::CreateSoftwareBreakpoint`: read a backup of the current
word, write the trap opcode, read it back and verify. -/
def Native.CreateSoftwareBreakpoint {σ : Type} (P : Process σ) (s : NState σ)
    (address : Nat) : Except NErr SWBreakpoint × NState σ :=
  match P.readText s.proc address 1 with
  | .error e => (.error e, s)
  | .ok backupList =>
    match backupList.head? with
    | none => (.error (.fatalError "vector::at out of range"), s)
    | some backup =>
      match P.writeText s.proc address [trapOpcode] with
      | .error e => (.error e, s)
      | .ok proc1 =>
        let s1 := { s with proc := proc1 }
        match P.readText proc1 address 1 with
        | .error e => (.error e, s1)
        | .ok newList =>
          match newList.head? with
          | none => (.error (.fatalError "vector::at out of range"), s1)
          | some new_opcode =>
            if new_opcode ≠ trapOpcode then
              (.error (.debuggerError "Failed to set breakpoint!"), s1)
            else (.ok ⟨backup, true⟩, s1)

/-- `Native::SetBreakpoint`. -/
def Native.SetBreakpoint {σ : Type} (P : Process σ) (s : NState σ)
    (address : Nat) : Except NErr Unit × NState σ :=
  if (s.software_breakpoints address).isSome then
    (.error (.debuggerError "Breakpoint is already set!"), s)
  else
    match Native.CreateSoftwareBreakpoint P s address with
    | (.error e, s1) => (.error e, s1)
    | (.ok bp, s1) =>
      let bps1 := updateBp s1.software_breakpoints address (some bp)
      (.ok (), { s1 with software_breakpoints := bps1 })

/-- `Native::DisableSoftwareBreakpoint`. -/
def Native.DisableSoftwareBreakpoint {σ : Type} (P : Process σ) (s : NState σ)
    (address : Nat) : Except NErr Unit × NState σ :=
  match s.software_breakpoints address with
  | none => (.error (.debuggerError "No breakpoint at address!"), s)
  | some bp =>
    if bp.enabled then
      match P.writeText s.proc address [bp.data] with
      | .error e => (.error e, s)
      | .ok proc1 =>
        let s1 := { s with proc := proc1 }
        let bps1 :=
          updateBp s1.software_breakpoints address (some { bp with enabled := false })
        let s2 := { s1 with software_breakpoints := bps1 }
        (.ok (), s2)
    else (.ok (), s)

/-- `Native::EnableSoftwareBreakpoint`. -/
def Native.EnableSoftwareBreakpoint {σ : Type} (P : Process σ) (s : NState σ)
    (address : Nat) : Except NErr Unit × NState σ :=
  match s.software_breakpoints address with
  | none => (.error (.debuggerError "No breakpoint at address!"), s)
  | some bp =>
    if ¬ bp.enabled then
      match Native.CreateSoftwareBreakpoint P s address with
      | (.error e, s1) => (.error e, s1)
      | (.ok bp1, s1) =>
        let bps1 := updateBp s1.software_breakpoints address (some bp1)
        (.ok (), { s1 with software_breakpoints := bps1 })
    else (.ok (), s)

/-- `Native::UnsetBreakpoint`. -/
def Native.UnsetBreakpoint {σ : Type} (P : Process σ) (s : NState σ)
    (address : Nat) : Except NErr Unit × NState σ :=
  match Native.DisableSoftwareBreakpoint P s address with
  | (.error e, s1) => (.error e, s1)
  | (.ok _, s1) =>
    let bps1 := updateBp s1.software_breakpoints address none
    (.ok (), { s1 with software_breakpoints := bps1 })

/-- The substitution loop of `Native::ReadText`: every address holding a
breakpoint record reads as the record's saved opcode. -/
def substBreakpoints (bps : Nat → Option SWBreakpoint) :
    Nat → List String → List String
  | _, [] => []
  | address, w :: ws =>
    (match bps address with
     | some bp => bp.data
     | none => w) :: substBreakpoints bps (address + 1) ws

/-- `Native::ReadText`. -/
def Native.ReadText {σ : Type} (P : Process σ) (s : NState σ)
    (address amount : Nat) : Except NErr (List String) × NState σ :=
  if address + amount > Native.TextSize P s then
    (.error (.debuggerError "Reading text out of range"), s)
  else
    match P.readText s.proc address amount with
    | .error e => (.error e, s)
    | .ok text => (.ok (substBreakpoints s.software_breakpoints address text), s)

/-- The rewrite loop of `Native::WriteText` on the text to be sent: an
address holding a breakpoint record receives the trap opcode instead. -/
def markTraps (bps : Nat → Option SWBreakpoint) :
    Nat → List String → List String
  | _, [] => []
  | address, w :: ws =>
    (if (bps address).isSome then trapOpcode else w) :: markTraps bps (address + 1) ws

/-- The rewrite loop of `Native::WriteText` on the breakpoint table: the
record at a written address gets the written word as its new saved
opcode. -/
def rewriteBpData (bps : Nat → Option SWBreakpoint) (address : Nat)
    (ws : List String) : Nat → Option SWBreakpoint :=
  fun a =>
    match bps a with
    | some bp =>
      if address ≤ a ∧ a < address + ws.length then
        some { bp with data := ws.getD (a - address) bp.data }
      else some bp
    | none => none

/-- `Native::WriteText`. -/
def Native.WriteText {σ : Type} (P : Process σ) (s : NState σ)
    (address : Nat) (ws : List String) : Except NErr Unit × NState σ :=
  if address + ws.length > Native.TextSize P s then
    (.error (.debuggerError "Writing text out of range"), s)
  else
    let s1 := { s with software_breakpoints :=
                  rewriteBpData s.software_breakpoints address ws }
    match P.writeText s1.proc address (markTraps s.software_breakpoints address ws) with
    | .error e => (.error e, s1)
    | .ok proc1 => (.ok (), { s1 with proc := proc1 })

/-- `Native::MapReasonToEvent`. -/
def Native.MapReasonToEvent {σ : Type} (P : Process σ) (s : NState σ)
    (reason : StopReason) : Except NErr DebugEvent :=
  match reason with
  | .softwareBreakpointHit =>
    (match Native.GetIP P s with
     | .error e => .error e
     | .ok ip => .ok (.breakpointHit .software (u64sub1 ip)))
  | .hardwareBreak =>
    let idx := archGetResponsibleRegister (P.fetchDebugRegisters s.proc)
    match s.watchpoints.find? (fun w => w.2.hw_reg = idx) with
    | none => .error (.fatalError "assert: no watchpoint for debug register")
    | some w => .ok (.watchpointTrigger .write w.1)
  | .singleStep => .ok .singleStep
  | .executionEnd => .ok .executionEnd
  | .executionBegin => .ok .executionBegin

/-- `Native::WaitForDebugEvent`: drain the cached event if present,
otherwise wait on the process and map the reason; in either case, if the
event is a `BreakpointHit`, write `IP` back by `-1`. -/
def Native.WaitForDebugEvent {σ : Type} (P : Process σ) (s : NState σ) :
    Except NErr DebugEvent × NState σ :=
  let step1 : Except NErr DebugEvent × NState σ :=
    match s.cached_event with
    | some ev => (.ok ev, { s with cached_event := none })
    | none =>
      let proc1 := P.doWait s.proc
      let s1 := { s with proc := proc1 }
      (Native.MapReasonToEvent P s1 (P.getReason proc1), s1)
  match step1 with
  | (.error e, s1) => (.error e, s1)
  | (.ok ev, s1) =>
    match ev with
    | .breakpointHit t a =>
      let regs := Native.GetRegisters P s1
      (match lookupStr regs "IP" with
       | none => (.error (.fatalError "map::at out of range"), s1)
       | some v =>
         (.ok (.breakpointHit t a),
          Native.SetRegisters P s1 (updateStr regs "IP" (wrap64s (v - 1)))))
    | ev => (.ok ev, s1)

/-- `Native::DoRawSingleStep`. -/
def Native.DoRawSingleStep {σ : Type} (P : Process σ) (s : NState σ) :
    Except NErr DebugEvent × NState σ :=
  Native.WaitForDebugEvent P { s with proc := P.singleStepCmd s.proc }

/-!
`Native::StepOverBreakpoint` and `Native::PerformSingleStep` are
mutually recursive in the source; the recursion can only deepen when the
process mutates registers under the debugger's feet, so the embedding
carries fuel.  Fuel 0 is `fatalError` and is never reached by the honest
process models used below.
-/

/-- The body of `Native::StepOverBreakpoint` — disable the breakpoint
at `ip`, perform the (recursive) single step supplied as `step`, then
re-enable it. -/
def Native.stepOverWith {σ : Type} (P : Process σ)
    (step : NState σ → Except NErr DebugEvent × NState σ)
    (s : NState σ) (ip : Nat) : Except NErr DebugEvent × NState σ :=
  match Native.DisableSoftwareBreakpoint P s ip with
  | (.error e, s1) => (.error e, s1)
  | (.ok _, s1) =>
    match step s1 with
    | (.error e, s2) => (.error e, s2)
    | (.ok ev, s2) =>
      match Native.EnableSoftwareBreakpoint P s2 ip with
      | (.error e, s3) => (.error e, s3)
      | (.ok _, s3) => (.ok ev, s3)

/-- `Native::PerformSingleStep` (fueled). -/
def Native.PerformSingleStepF {σ : Type} :
    Nat → Process σ → NState σ → Except NErr DebugEvent × NState σ
  | 0, _, s => (.error (.fatalError "unbounded recursion"), s)
  | fuel + 1, P, s =>
    if ¬ supportHardwareLevelSingleStep then
      (.error (.debuggerError "Singlestep is not supported"), s)
    else
      match Native.GetIP P s with
      | .error e => (.error e, s)
      | .ok ip =>
        match s.software_breakpoints ip with
        | some bp =>
          if bp.enabled then
            Native.stepOverWith P (Native.PerformSingleStepF fuel P) s ip
          else Native.DoRawSingleStep P s
        | none => Native.DoRawSingleStep P s

/-- `Native::StepOverBreakpoint` (fueled). -/
def Native.StepOverBreakpointF {σ : Type} (fuel : Nat) (P : Process σ)
    (s : NState σ) (ip : Nat) : Except NErr DebugEvent × NState σ :=
  Native.stepOverWith P (Native.PerformSingleStepF fuel P) s ip

/-- `Native::PerformSingleStep` (fuel 8 is far beyond the recursion
depth reachable with any process model in this file). -/
def Native.PerformSingleStep {σ : Type} (P : Process σ) (s : NState σ) :
    Except NErr DebugEvent × NState σ :=
  Native.PerformSingleStepF 8 P s

/-- `Native::StepOverBreakpoint`. -/
def Native.StepOverBreakpoint {σ : Type} (P : Process σ) (s : NState σ)
    (ip : Nat) : Except NErr DebugEvent × NState σ :=
  Native.StepOverBreakpointF 8 P s ip

/-- `Native::ContinueExecution`. -/
def Native.ContinueExecution {σ : Type} (P : Process σ) (s : NState σ) :
    Except NErr Unit × NState σ :=
  match Native.GetIP P s with
  | .error e => (.error e, s)
  | .ok ip =>
    let bpFree :=
      match s.software_breakpoints ip with
      | none => true
      | some bp => ¬ bp.enabled
    if bpFree then
      (.ok (), { s with proc := P.resumeExecution s.proc })
    else
      match Native.StepOverBreakpoint P s ip with
      | (.error e, s1) => (.error e, s1)
      | (.ok ev, s1) =>
        if ev = DebugEvent.singleStep then
          (.ok (), { s1 with proc := P.resumeExecution s1.proc })
        else
          (.ok (), { s1 with cached_event := some ev })

/-- `Native::GetFreeDebugRegister`: the lowest debug-register slot not
used by any watchpoint. -/
def Native.GetFreeDebugRegister (watchpoints : List (Nat × Watchpoint)) :
    Option Nat :=
  (List.range debugRegistersCount).find?
    (fun i => watchpoints.all (fun w => w.2.hw_reg ≠ i))

/-- `Native::SetWatchpointWrite`. -/
def Native.SetWatchpointWrite {σ : Type} (P : Process σ) (s : NState σ)
    (address : Nat) : Except NErr Unit × NState σ :=
  if ¬ supportsHardwareWatchpoints then
    (.error (.debuggerError "This architecture does not support watchpoints"), s)
  else if (s.watchpoints.lookup address).isSome then
    (.error (.debuggerError "A watchpoint is already set on that address."), s)
  else
    match Native.GetFreeDebugRegister s.watchpoints with
    | none => (.error (.debuggerError "Maximum amount of watchpoints has been set"), s)
    | some idx =>
      let dbg_regs := P.fetchDebugRegisters s.proc
      let dbg_regs1 := archSetDebugRegister idx address dbg_regs
      let dbg_regs2 := archActivateDebugRegister idx dbg_regs1
      let s1 := { s with proc := P.setDebugRegisters s.proc dbg_regs2 }
      let s2 := { s1 with watchpoints := (address, ⟨idx⟩) :: s1.watchpoints }
      (.ok (), s2)

/-- `Native::RemoveWatchpoint`: the deactivation is computed on a
locally fetched copy of the debug registers which is then dropped —
`SetDebugRegisters` is never called. -/
def Native.RemoveWatchpoint {σ : Type} (P : Process σ) (s : NState σ)
    (address : Nat) : Except NErr Unit × NState σ :=
  match s.watchpoints.lookup address with
  | none => (.error (.debuggerError "A watchpoint is already set on that address."), s)
  | some wp =>
    let _dbg_regs :=
      archDeactivateDebugRegister wp.hw_reg (P.fetchDebugRegisters s.proc)
    (.ok (), { s with watchpoints := eraseKey address s.watchpoints })

/-! ## Process models

`simProcess` is the honest model of the process-interface contract
(§4.7): text memory is a word array read and written in place, waiting
consumes the next entry of an oracle of `(reason, registers)` outcomes
supplied by the environment (the execution engine is out of scope), and
out-of-range text accesses fail. -/

structure SimState where
  textLen : Nat
  text : Nat → String
  regs : List (String × Int)
  dregs : List DebugReg
  outcomes : List (StopReason × List (String × Int))
  lastReason : StopReason

/-- The honest process model. -/
def simProcess : Process SimState where
  readText := fun st a n =>
    if a + n ≤ st.textLen then .ok ((List.range n).map (fun i => st.text (a + i)))
    else .error (.debuggerError "process: text read out of range")
  writeText := fun st a ws =>
    if a + ws.length ≤ st.textLen then
      .ok { st with text := fun x =>
              if a ≤ x ∧ x < a + ws.length then ws.getD (x - a) (st.text x)
              else st.text x }
    else .error (.debuggerError "process: text write out of range")
  textSize := fun st => st.textLen
  fetchRegisters := fun st => st.regs
  setRegisters := fun st r => { st with regs := r }
  fetchDebugRegisters := fun st => st.dregs
  setDebugRegisters := fun st r => { st with dregs := r }
  doWait := fun st =>
    match st.outcomes with
    | [] => st
    | (r, regs) :: rest =>
      { st with lastReason := r, regs := regs, outcomes := rest }
  getReason := fun st => st.lastReason
  resumeExecution := fun st => st
  singleStepCmd := fun st => st

/-- A process whose text writes are silently lost (e.g. a broken or
read-only target): used to witness the failed-verification path of
`SetBreakpoint`. -/
def stuckWriteProcess : Process SimState :=
  { simProcess with writeText := fun st _ _ => .ok st }

/-! ## Source layer: DIEs and type reconstruction

Shallow embedding of `Source::ReconstructTypeInformation` from
`src/t86/debugger/Source/Source.cpp`.  The DIE data types
(`Die.h`, `Type.h`) are not under `src/`; they are modelled from the
spec's data model and the use sites in `Source.cpp`. -/

inductive DIETag where
  | compile_unit | function_tag | scope_tag | variable_tag
  | primitive_type | structured_type | pointer_type
deriving DecidableEq

/-- Modelled from the spec: one entry of the `members` attribute. -/
structure MemberEntry where
  name : String
  type_id : Nat
  offset : Nat
deriving DecidableEq

/-- Modelled from the spec: a location-program instruction. -/
inductive LocExpr where
  | pushImm (i : Int)
  | pushReg (name : String)
  | baseOffset (n : Int)
  | addLoc
  | derefLoc
deriving DecidableEq

/-- Modelled from the spec: DIE attributes. -/
inductive DIEAttr where
  | attr_name (n : String)
  | attr_id (i : Nat)
  | attr_begin_addr (a : Nat)
  | attr_end_addr (a : Nat)
  | attr_size (s : Nat)
  | attr_type (type_id : Nat)
  | attr_members (m : List MemberEntry)
  | attr_location (locs : List LocExpr)
deriving DecidableEq

/-- Modelled from the spec: a DIE is a tag, an attribute set and an
ordered list of children. -/
inductive DIE where
  | node (tag : DIETag) (attrs : List DIEAttr) (children : List DIE)

def DIE.tag : DIE → DIETag
  | .node t _ _ => t

def DIE.attrs : DIE → List DIEAttr
  | .node _ a _ => a

def DIE.children : DIE → List DIE
  | .node _ _ c => c

/-- `FindDieAttribute<ATTR_id>`. -/
def findAttrId : List DIEAttr → Option Nat
  | [] => none
  | .attr_id i :: _ => some i
  | _ :: t => findAttrId t

/-- `FindDieAttribute<ATTR_name>`. -/
def findAttrName : List DIEAttr → Option String
  | [] => none
  | .attr_name n :: _ => some n
  | _ :: t => findAttrName t

/-- `FindDieAttribute<ATTR_size>`. -/
def findAttrSize : List DIEAttr → Option Nat
  | [] => none
  | .attr_size s :: _ => some s
  | _ :: t => findAttrSize t

/-- `FindDieAttribute<ATTR_type>`. -/
def findAttrType : List DIEAttr → Option Nat
  | [] => none
  | .attr_type i :: _ => some i
  | _ :: t => findAttrType t

/-- `FindDieAttribute<ATTR_members>`. -/
def findAttrMembers : List DIEAttr → Option (List MemberEntry)
  | [] => none
  | .attr_members m :: _ => some m
  | _ :: t => findAttrMembers t

mutual

/-- `FindDIEById`: the DIE in the tree with the given `id` attribute. -/
def FindDIEById : DIE → Nat → Option DIE
  | .node t attrs children, i =>
    if findAttrId attrs = some i then some (.node t attrs children)
    else FindDIEByIdList children i

/-- The child loop of `FindDIEById`. -/
def FindDIEByIdList : List DIE → Nat → Option DIE
  | [], _ => none
  | d :: ds, i =>
    match FindDIEById d i with
    | some r => some r
    | none => FindDIEByIdList ds i

end

/-- Modelled from the spec: categories produced by `ToPrimitiveType`. -/
inductive TypeCategory where
  | signedIntT | unsignedIntT | floatT | charT | boolT
deriving DecidableEq

/-- Modelled from the spec: `ToPrimitiveType` resolves a primitive-type
name to a category; unknown names yield none. -/
def ToPrimitiveType (name : String) : Option TypeCategory :=
  if name = "int" then some .signedIntT
  else if name = "unsigned" then some .unsignedIntT
  else if name = "float" ∨ name = "double" then some .floatT
  else if name = "char" then some .charT
  else if name = "bool" then some .boolT
  else none

/-- Modelled from the spec: the reconstructed `Type` variant.  A
structured member is `(name, optional type, offset)`. -/
inductive Ty where
  | primitiveT (cat : TypeCategory) (size : Nat)
  | structuredT (name : String) (size : Nat)
      (members : List (String × Option Ty × Nat))
  | pointerT (type_idx : Nat) (name : String) (size : Nat)

/-- The `std::ranges::transform` over a structured type's members,
with the recursive reconstruction supplied as `recFn` (the per-`Source`
type cache is threaded through exactly as the mutable member
`cached_types` is in the C++). -/
def reconstructMembersWith
    (recFn : List (Nat × Ty) → Nat → Option (Option Ty × List (Nat × Ty))) :
    List MemberEntry → List (Nat × Ty) →
    Option (List (String × Option Ty × Nat) × List (Nat × Ty))
  | [], cache => some ([], cache)
  | m :: ms, cache =>
    match recFn cache m.type_id with
    | none => none
    | some (ti, cache1) =>
      match reconstructMembersWith recFn ms cache1 with
      | none => none
      | some (rest, cache2) => some ((m.name, ti, m.offset) :: rest, cache2)

/-- `Source::ReconstructTypeInformation`, fueled.  The C++ recursion is
on DIE ids resolved through `FindDIEById` and genuinely diverges on some
ill-formed inputs, so the embedding carries fuel; `none` marks fuel
exhaustion (or the `UNREACHABLE` abort on a non-type tag, which no input
in this file reaches).  The result pairs the reconstructed type with the
updated cache. -/
def ReconstructTypeInformationF :
    Nat → DIE → List (Nat × Ty) → Nat → Option (Option Ty × List (Nat × Ty))
  | 0, _, _, _ => none
  | fuel + 1, top, cache, id =>
    match cache.lookup id with
    | some t => some (some t, cache)
    | none =>
      match FindDIEById top id with
      | none => some (none, cache)
      | some die =>
        if die.tag = DIETag.primitive_type then
          match findAttrName die.attrs with
          | none => some (none, cache)
          | some name =>
            match ToPrimitiveType name with
            | none => some (none, cache)
            | some cat =>
              match findAttrSize die.attrs with
              | none => some (none, cache)
              | some size => some (some (.primitiveT cat size), cache)
        else if die.tag = DIETag.structured_type then
          match findAttrName die.attrs with
          | none => some (none, cache)
          | some name =>
            match findAttrSize die.attrs with
            | none => some (some (.structuredT name 0 []), cache)
            | some size =>
              match findAttrMembers die.attrs with
              | none => some (some (.structuredT name size []), cache)
              | some members =>
                match reconstructMembersWith
                    (ReconstructTypeInformationF fuel top) members cache with
                | none => none
                | some (members_vec, cache1) =>
                  let result := Ty.structuredT name size members_vec
                  some (some result, (id, result) :: cache1)
        else if die.tag = DIETag.pointer_type then
          match findAttrType die.attrs with
          | none => some (none, cache)
          | some pointing_to =>
            match findAttrSize die.attrs, FindDIEById top pointing_to with
            | some size, some pointed_die =>
              (match findAttrName pointed_die.attrs with
               | none => some (none, cache)
               | some name =>
                 let ptr := Ty.pointerT pointing_to name size
                 some (some ptr, (id, ptr) :: cache))
            | _, _ => some (none, cache)
        else none

/-! ## Operation sequences over the honest process

For the breakpoint invariant (spec §3), runs are sequences of the
`Native` operations that touch text or the breakpoint table, executed
against the honest process model.  A failed operation leaves exactly the
mutations the C++ performed before the exception (none of these
operations mutate anything before throwing, on the honest model). -/

inductive NOp where
  | setBp (a : Nat)
  | unsetBp (a : Nat)
  | enableBp (a : Nat)
  | disableBp (a : Nat)
  | readTextOp (a n : Nat)
  | writeTextOp (a : Nat) (ws : List String)

/-- Execute one operation for its state effect. -/
def applyOp (s : NState SimState) : NOp → NState SimState
  | .setBp a => (Native.SetBreakpoint simProcess s a).2
  | .unsetBp a => (Native.UnsetBreakpoint simProcess s a).2
  | .enableBp a => (Native.EnableSoftwareBreakpoint simProcess s a).2
  | .disableBp a => (Native.DisableSoftwareBreakpoint simProcess s a).2
  | .readTextOp a n => (Native.ReadText simProcess s a n).2
  | .writeTextOp a ws => (Native.WriteText simProcess s a ws).2

/-- Run a sequence of operations. -/
def runOps (s : NState SimState) : List NOp → NState SimState
  | [] => s
  | op :: ops => runOps (applyOp s op) ops

/-- The word the program is supposed to have at each address: the
original word until a successful `WriteText` covers the address, then
the word most recently written there.  `tlen` is the (constant) text
size, used to decide whether a write succeeded. -/
def ghostApply (tlen : Nat) (g : Nat → String) : NOp → Nat → String
  | .writeTextOp a ws =>
    if a + ws.length ≤ tlen then
      fun x => if a ≤ x ∧ x < a + ws.length then ws.getD (x - a) (g x) else g x
    else g
  | _ => g

/-- Ghost run. -/
def runGhost (tlen : Nat) (g : Nat → String) : List NOp → Nat → String
  | [] => g
  | op :: ops => runGhost tlen (ghostApply tlen g op) ops

/-- The breakpoint invariant at one address: `rec` is the table record,
`t` the debuggee's word, `w` the program's intended word.  An enabled
record means the debuggee holds the trap opcode and the record saves the
intended word; a disabled record means both the debuggee and the record
hold the intended word; no record means the debuggee holds the intended
word. -/
def BpInvAt (rec : Option SWBreakpoint) (t w : String) : Prop :=
  (rec = none → t = w) ∧
  (∀ bp, rec = some bp →
    (bp.enabled = true → t = trapOpcode ∧ bp.data = w) ∧
    (bp.enabled = false → t = w ∧ bp.data = w))

/-- The breakpoint-table invariant, at every text address. -/
def BpInv (s : NState SimState) (g : Nat → String) : Prop :=
  ∀ a, a < s.proc.textLen →
    BpInvAt (s.software_breakpoints a) (s.proc.text a) (g a)

/-- Side condition on a single operation: `WriteText` must not cover an
address holding a currently *disabled* breakpoint (the code would
silently install the trap there while the record stays disabled). -/
def GoodOp (s : NState SimState) : NOp → Prop
  | .writeTextOp a ws =>
    ∀ x, a ≤ x → x < a + ws.length →
      ∀ bp, s.software_breakpoints x = some bp → bp.enabled = true
  | _ => True

/-- Side condition along a run. -/
def GoodRun (s : NState SimState) : List NOp → Prop
  | [] => True
  | op :: ops => GoodOp s op ∧ GoodRun (applyOp s op) ops

/-! ## Concrete states and inputs used by the theorems -/

/-- A debuggee whose program genuinely contains `BKPT` at address 0 and
has a software breakpoint set there, stopped with `IP = 0`; the oracle
says the next wait reports a software-breakpoint hit with `IP = 1`
(which is what executing the program's own `BKPT` at 0 produces). -/
def natBkptAt0 : NState SimState :=
  { proc := { textLen := 2, text := fun i => if i = 0 then "BKPT" else "NOP",
              regs := [("IP", 0)], dregs := [],
              outcomes := [(.softwareBreakpointHit, [("IP", 1)])],
              lastReason := .executionBegin },
    software_breakpoints := fun a => if a = 0 then some ⟨"BKPT", true⟩ else none,
    watchpoints := [], cached_event := none }

/-- A one-word debuggee with program word `"X"` and no breakpoints. -/
def natOneWordX : NState SimState :=
  { proc := { textLen := 1, text := fun _ => "X", regs := [("IP", 0)], dregs := [],
              outcomes := [], lastReason := .executionBegin },
    software_breakpoints := fun _ => none,
    watchpoints := [], cached_event := none }

/-- A three-word debuggee full of `"NOP"` with no breakpoints. -/
def natThreeNops : NState SimState :=
  { proc := { textLen := 3, text := fun _ => "NOP", regs := [("IP", 0)], dregs := [],
              outcomes := [], lastReason := .executionBegin },
    software_breakpoints := fun _ => none,
    watchpoints := [], cached_event := none }

/-- A debuggee with one watchpoint installed at address 16 on debug
register 0 (register 0 active in the target). -/
def natOneWatchpoint : NState SimState :=
  { proc := { textLen := 1, text := fun _ => "NOP", regs := [("IP", 0)],
              dregs := [⟨16, true⟩, ⟨0, false⟩, ⟨0, false⟩, ⟨0, false⟩],
              outcomes := [], lastReason := .executionBegin },
    software_breakpoints := fun _ => none,
    watchpoints := [(16, ⟨0⟩)], cached_event := none }

/-- A parser state whose current token is a semicolon (as reached right
after an instruction followed by a semicolon has been parsed). -/
def semiPState : PState :=
  { lex := { input := [], lookahead := none, row := 0, col := 0,
             tok_row := 0, tok_col := 9, number := -1, float_lit := [],
             id := "NOP", str := "" },
    curtok := ⟨.SEMICOLON, 0, 9⟩, program := [.NOP], dataSec := [] }

/-- The DIE tree of a self-referential linked-list struct: a compile
unit containing a structured type (id `sid`) whose single member's type
is the pointer type (id `pid`) whose target is the struct itself. -/
def llTop (sid pid : Nat) (sname mname : String) (ssize psize off : Nat) : DIE :=
  .node .compile_unit []
    [ .node .structured_type
        [.attr_id sid, .attr_name sname, .attr_size ssize,
         .attr_members [⟨mname, pid, off⟩]] [],
      .node .pointer_type [.attr_id pid, .attr_type sid, .attr_size psize] [] ]

/-! # Theorems -/

/-- C1: the event-address alignment fails on the cached-event path.  At
`natBkptAt0`, `ContinueExecution` steps over the breakpoint, the step
reports a software-breakpoint hit, and the event `BreakpointHit{Software,
0}` (already IP-adjusted by the inner wait) is cached.  Dequeuing it in
`WaitForDebugEvent` decrements `IP` a second time, so after the call
returns the event address is 0 but `IP` is `2^64 - 1` (`int64` value
`-1`), not 0 as the claim requires. -/
theorem c1_cached_event_ip_divergence :
    (Native.ContinueExecution simProcess natBkptAt0).1 = .ok () ∧
    (Native.ContinueExecution simProcess natBkptAt0).2.cached_event
      = some (DebugEvent.breakpointHit .software 0) ∧
    (Native.WaitForDebugEvent simProcess
        (Native.ContinueExecution simProcess natBkptAt0).2).1
      = .ok (DebugEvent.breakpointHit .software 0) ∧
    Native.GetIP simProcess
        (Native.WaitForDebugEvent simProcess
          (Native.ContinueExecution simProcess natBkptAt0).2).2
      = .ok 18446744073709551615 ∧
    (18446744073709551615 : Nat) ≠ 0 :=
  ⟨rfl, rfl, rfl, rfl, by decide⟩

/-- C4 counterexample: following every instruction by a semicolon does
not preserve the instruction list.  `".text NOP ; NOP ;"` parses
successfully but yields only the first `NOP`, while the semicolon-free
version yields both. -/
theorem c4_counterexample_semicolons_drop_instructions :
    parseProgram ".text NOP ; NOP ;" = .ok ⟨[.NOP], []⟩ ∧
    parseProgram ".text NOP NOP" = .ok ⟨[.NOP, .NOP], []⟩ ∧
    ([Instruction.NOP] : List Instruction) ≠ [.NOP, .NOP] :=
  ⟨rfl, rfl, by decide⟩

/-- C4 (amended): a semicolon where an instruction could start ends the
text section without error; hence a semicolon after the final
instruction leaves the parse unchanged, while a semicolon after a
non-final instruction makes the parser return successfully with only the
instructions before it. -/
theorem c4_trailing_semicolon_amended :
    (∀ (st : PState) (fuel : Nat), st.curtok.kind = TokenKind.SEMICOLON →
      Parser.TextF (fuel + 1) st = .ok st) ∧
    parseProgram ".text NOP ;" = .ok ⟨[.NOP], []⟩ ∧
    parseProgram ".text NOP" = .ok ⟨[.NOP], []⟩ ∧
    parseProgram ".text NOP ; NOP" = .ok ⟨[.NOP], []⟩ := by
  refine ⟨fun st fuel h => ?_, rfl, rfl, rfl⟩
  simp [Parser.TextF, h]

/-- C4 witness: the amended theorem applied at a concrete parser state
whose current token is a semicolon. -/
theorem c4_trailing_semicolon_amended_witness :
    Parser.TextF 1 semiPState = .ok semiPState :=
  c4_trailing_semicolon_amended.1 semiPState 0 rfl

/-- C5: parsing `ADD R0, [R1 + 4]` succeeds, but the `[R + i]` branch of
`Parser::SimpleMemory` returns without consuming the closing `]`, so the
text-section loop stops and the following `NOP` is silently dropped
instead of being parsed. -/
theorem c5_simple_memory_unconsumed_bracket :
    parseProgram ".text ADD R0, [R1 + 4] NOP"
      = .ok ⟨[.ADD (.gp 0) (.memRegImm (.gp 1) 4)], []⟩ :=
  rfl

/-- C6: not every grammar deviation raises a located `ParserError`:
`MOV ;` reaches the `UNREACHABLE` abort in `Parser::Operand`, and a `-`
followed by a non-digit escapes as `std::invalid_argument` from
`std::stoi`. -/
theorem c6_deviations_not_parser_error :
    parseProgram ".text MOV ;" = .error .unreachableMark ∧
    parseProgram "-x" = .error .stoiInvalidArgument :=
  ⟨rfl, rfl⟩

/-- C7 counterexample: the literal 5000000000 is representable as a
64-bit signed integer, yet the data section does not accept it:
`std::stoi` parses into a C `int` and raises `out_of_range`. -/
theorem c7_counterexample_i64_literal_rejected :
    parseProgram ".data 5000000000" = .error .stoiOutOfRange ∧
    (5000000000 : Int) < 9223372036854775808 :=
  ⟨rfl, by decide⟩

/-- C2 counterexample: after `SetBreakpoint 0; DisableSoftwareBreakpoint
0; WriteText 0 ["Y"]; EnableSoftwareBreakpoint 0` on a program whose
word at 0 is `"X"`, the record is enabled with saved opcode `"BKPT"`:
the saved opcode *is* the trap opcode and is not the most recently
written word `"Y"`. -/
theorem c2_counterexample_saved_opcode_is_trap :
    (runOps natOneWordX
        [.setBp 0, .disableBp 0, .writeTextOp 0 ["Y"], .enableBp 0]).software_breakpoints 0
      = some ⟨trapOpcode, true⟩ ∧
    trapOpcode ≠ "Y" :=
  ⟨rfl, by decide⟩

/-- C10: `RemoveWatchpoint` on an address with a watchpoint erases the
table entry and returns success, but deactivates the debug register only
in a locally fetched copy: the process state — in particular the
target's debug registers — is left completely unchanged
(`SetDebugRegisters` is never invoked). -/
theorem c10_remove_watchpoint_leaves_process_unchanged {σ : Type}
    (P : Process σ) (s : NState σ) (address : Nat) (wp : Watchpoint)
    (h : s.watchpoints.lookup address = some wp) :
    Native.RemoveWatchpoint P s address
      = (.ok (), { s with watchpoints := eraseKey address s.watchpoints }) := by
  unfold Native.RemoveWatchpoint
  rw [h]

/-- C10 witness: the theorem applied at a concrete state with one
watchpoint; the debuggee's debug registers stay armed. -/
theorem c10_remove_watchpoint_witness :
    natOneWatchpoint.watchpoints.lookup 16 = some ⟨0⟩ ∧
    Native.RemoveWatchpoint simProcess natOneWatchpoint 16
      = (.ok (), { natOneWatchpoint with
                   watchpoints := eraseKey 16 natOneWatchpoint.watchpoints }) :=
  ⟨rfl, c10_remove_watchpoint_leaves_process_unchanged simProcess natOneWatchpoint 16 ⟨0⟩ rfl⟩

/-- C8: for any self-referential linked-list DIE tree (struct `sid`
with one member whose type is pointer `pid` back to `sid`),
`ReconstructTypeInformation` terminates — any fuel of at least 2
suffices and the result no longer depends on it — and returns a
`StructuredType` with one member whose type is a `PointerType` whose
type index is the struct's own die id. -/
theorem c8_linked_list_struct_reconstruction
    (sid pid : Nat) (sname mname : String) (ssize psize off : Nat)
    (hne : sid ≠ pid) (fuel : Nat) :
    ReconstructTypeInformationF (fuel + 2) (llTop sid pid sname mname ssize psize off) [] sid
      = some (some (.structuredT sname ssize
                      [(mname, some (.pointerT sid sname psize), off)]),
              [(sid, .structuredT sname ssize
                       [(mname, some (.pointerT sid sname psize), off)]),
               (pid, .pointerT sid sname psize)]) := by
  have hne' : (pid == sid) = false := by
    simp [beq_iff_eq]
    exact fun h => hne h.symm
  simp [ReconstructTypeInformationF, reconstructMembersWith, llTop,
        FindDIEById, FindDIEByIdList, findAttrId, findAttrName, findAttrSize,
        findAttrType, findAttrMembers, DIE.tag, DIE.attrs, List.lookup, hne,
        Ne.symm hne, hne']

/-- C8 witness: the theorem instantiated at the concrete linked-list
tree with struct id 1 and pointer id 2. -/
theorem c8_linked_list_struct_reconstruction_witness :
    (1 : Nat) ≠ 2 ∧
    ReconstructTypeInformationF 2 (llTop 1 2 "list" "next" 2 1 0) [] 1
      = some (some (.structuredT "list" 2
                      [("next", some (.pointerT 1 "list" 1), 0)]),
              [(1, .structuredT "list" 2 [("next", some (.pointerT 1 "list" 1), 0)]),
               (2, .pointerT 1 "list" 1)]) :=
  ⟨by decide, c8_linked_list_struct_reconstruction 1 2 "list" "next" 2 1 0 (by decide) 0⟩

/-- C9: `SetBreakpoint` is atomic with respect to the breakpoint table,
for an arbitrary process implementation: either it returns success, with
an enabled record inserted at the address and the trap opcode read back
from the debuggee, or it throws and the table is exactly as before; and
in particular, when the read-back after writing the trap does not return
the trap opcode, it throws a `DebuggerError` and leaves the table
unchanged. -/
theorem c9_set_breakpoint_atomic {σ : Type} (P : Process σ) (s : NState σ)
    (address : Nat) :
    ((∃ bp : SWBreakpoint,
        (Native.SetBreakpoint P s address).1 = .ok () ∧ bp.enabled = true ∧
        (Native.SetBreakpoint P s address).2.software_breakpoints
          = updateBp s.software_breakpoints address (some bp) ∧
        ∃ l, P.readText (Native.SetBreakpoint P s address).2.proc address 1 = .ok l ∧
             l.head? = some trapOpcode) ∨
     (∃ e, (Native.SetBreakpoint P s address).1 = .error e ∧
        (Native.SetBreakpoint P s address).2.software_breakpoints
          = s.software_breakpoints)) ∧
    (∀ (backup w : String) (proc1 : σ),
      s.software_breakpoints address = none →
      P.readText s.proc address 1 = .ok [backup] →
      P.writeText s.proc address [trapOpcode] = .ok proc1 →
      P.readText proc1 address 1 = .ok [w] →
      w ≠ trapOpcode →
      (∃ m, (Native.SetBreakpoint P s address).1
              = .error (.debuggerError m)) ∧
      (Native.SetBreakpoint P s address).2.software_breakpoints
        = s.software_breakpoints) := by
  constructor
  · by_cases h0 : (s.software_breakpoints address).isSome
    · right
      refine ⟨.debuggerError "Breakpoint is already set!", ?_, ?_⟩ <;>
        simp [Native.SetBreakpoint, h0]
    · rcases hr : P.readText s.proc address 1 with e | l
      · right
        refine ⟨e, ?_, ?_⟩ <;>
          simp [Native.SetBreakpoint, Native.CreateSoftwareBreakpoint, h0, hr]
      · rcases hh : l.head? with _ | backup
        · right
          refine ⟨.fatalError "vector::at out of range", ?_, ?_⟩ <;>
            simp [Native.SetBreakpoint, Native.CreateSoftwareBreakpoint, h0, hr, hh]
        · rcases hw : P.writeText s.proc address [trapOpcode] with e | proc1
          · right
            refine ⟨e, ?_, ?_⟩ <;>
              simp [Native.SetBreakpoint, Native.CreateSoftwareBreakpoint, h0, hr, hh, hw]
          · rcases hr2 : P.readText proc1 address 1 with e | l2
            · right
              refine ⟨e, ?_, ?_⟩ <;>
                simp [Native.SetBreakpoint, Native.CreateSoftwareBreakpoint,
                      h0, hr, hh, hw, hr2]
            · rcases hh2 : l2.head? with _ | w
              · right
                refine ⟨.fatalError "vector::at out of range", ?_, ?_⟩ <;>
                  simp [Native.SetBreakpoint, Native.CreateSoftwareBreakpoint,
                        h0, hr, hh, hw, hr2, hh2]
              · by_cases hv : w = trapOpcode
                · left
                  refine ⟨⟨backup, true⟩, ?_, rfl, ?_, l2, ?_, ?_⟩ <;>
                    simp [Native.SetBreakpoint, Native.CreateSoftwareBreakpoint,
                          h0, hr, hh, hw, hr2, hh2, hv]
                · right
                  refine ⟨.debuggerError "Failed to set breakpoint!", ?_, ?_⟩ <;>
                    simp [Native.SetBreakpoint, Native.CreateSoftwareBreakpoint,
                          h0, hr, hh, hw, hr2, hh2, hv]
  · intro backup w proc1 h0 hr hw hr2 hv
    have h0' : ¬ (s.software_breakpoints address).isSome = true := by
      simp [h0]
    constructor
    · refine ⟨"Failed to set breakpoint!", ?_⟩
      simp [Native.SetBreakpoint, Native.CreateSoftwareBreakpoint,
            h0', hr, hw, hr2, hv]
    · simp [Native.SetBreakpoint, Native.CreateSoftwareBreakpoint,
            h0', hr, hw, hr2, hv]

/-- C9 witness: against a process whose text writes are lost, setting a
breakpoint at a `NOP` word fails verification with a `DebuggerError` and
the breakpoint table is untouched. -/
theorem c9_set_breakpoint_atomic_witness :
    natThreeNops.software_breakpoints 0 = none ∧
    stuckWriteProcess.readText natThreeNops.proc 0 1 = .ok ["NOP"] ∧
    stuckWriteProcess.writeText natThreeNops.proc 0 [trapOpcode]
      = .ok natThreeNops.proc ∧
    ("NOP" : String) ≠ trapOpcode ∧
    ((∃ m, (Native.SetBreakpoint stuckWriteProcess natThreeNops 0).1
             = .error (.debuggerError m)) ∧
     (Native.SetBreakpoint stuckWriteProcess natThreeNops 0).2.software_breakpoints
       = natThreeNops.software_breakpoints) :=
  ⟨rfl, rfl, rfl, by decide,
   (c9_set_breakpoint_atomic stuckWriteProcess natThreeNops 0).2
     "NOP" "NOP" natThreeNops.proc rfl rfl rfl rfl (by decide)⟩

/-! ## Pointwise characterizations of the Native operations on the
honest process model (used by the breakpoint-invariant proofs) -/

theorem substBreakpoints_getElem? (bps : Nat → Option SWBreakpoint) (a : Nat)
    (l : List String) (i : Nat) :
    (substBreakpoints bps a l)[i]? =
      (l[i]?).map (fun w =>
        match bps (a + i) with
        | some bp => bp.data
        | none => w) := by
  induction l generalizing a i with
  | nil => simp [substBreakpoints]
  | cons w ws ih =>
    cases i with
    | zero => simp [substBreakpoints]
    | succ j =>
      have h1 : a + 1 + j = a + (j + 1) := by omega
      simp [substBreakpoints, ih (a + 1) j, h1]

theorem markTraps_length (bps : Nat → Option SWBreakpoint) (a : Nat)
    (ws : List String) : (markTraps bps a ws).length = ws.length := by
  induction ws generalizing a with
  | nil => simp [markTraps]
  | cons w t ih => simp [markTraps, ih]


theorem markTraps_getD (bps : Nat → Option SWBreakpoint) (a : Nat)
    (ws : List String) (i : Nat) (d : String) (h : i < ws.length) :
    (markTraps bps a ws).getD i d
      = if (bps (a + i)).isSome then trapOpcode else ws.getD i d := by
  induction ws generalizing a i with
  | nil => simp at h
  | cons w t ih =>
    cases i with
    | zero => simp [markTraps]
    | succ j =>
      have h1 : a + 1 + j = a + (j + 1) := by omega
      have h2 : j < t.length := by simpa using h
      rw [show markTraps bps a (w :: t)
            = (if (bps a).isSome then trapOpcode else w) :: markTraps bps (a + 1) t
          from rfl,
          List.getD_cons_succ, ih (a + 1) j h2, h1, List.getD_cons_succ]

theorem sim_set_ok (s : NState SimState) (A : Nat)
    (h0 : s.software_breakpoints A = none) (hA : A + 1 ≤ s.proc.textLen) :
    (Native.SetBreakpoint simProcess s A).1 = .ok () ∧
    (Native.SetBreakpoint simProcess s A).2.proc.textLen = s.proc.textLen ∧
    (∀ x, (Native.SetBreakpoint simProcess s A).2.proc.text x
            = if x = A then trapOpcode else s.proc.text x) ∧
    (∀ x, (Native.SetBreakpoint simProcess s A).2.software_breakpoints x
            = if x = A then some ⟨s.proc.text A, true⟩ else s.software_breakpoints x) := by
  have hr1 : (List.range 1) = [0] := rfl
  have hc : A ≤ A + 0 ∧ A + 0 < A + 1 := by omega
  simp only [Native.SetBreakpoint, Native.CreateSoftwareBreakpoint, simProcess,
             h0, Option.isSome_none, Bool.false_eq_true, if_false, hA, if_true,
             hr1, List.map_cons, List.map_nil, List.head?_cons,
             List.length_cons, List.length_nil, List.length_singleton,
             Nat.add_zero]
  have hAA : A ≤ A ∧ A < A + (0 + 1) := by omega
  simp only [hAA, if_true, Nat.sub_self, List.getD_cons_zero, ne_eq,
             not_true_eq_false, if_false]
  refine ⟨by simp, by simp, ?_, ?_⟩
  · intro x
    by_cases hx : x = A
    · simp [hx, hAA, Nat.sub_self]
    · have hn : ¬ (A ≤ x ∧ x < A + (0 + 1)) := by omega
      simp [hx, hn]
  · intro x
    by_cases hx : x = A <;> simp [updateBp, hx]

theorem sim_disable_ok (s : NState SimState) (A : Nat) (bp : SWBreakpoint)
    (h0 : s.software_breakpoints A = some bp) (hbp : bp.enabled = true)
    (hA : A + 1 ≤ s.proc.textLen) :
    (Native.DisableSoftwareBreakpoint simProcess s A).1 = .ok () ∧
    (Native.DisableSoftwareBreakpoint simProcess s A).2.proc.textLen
      = s.proc.textLen ∧
    (∀ x, (Native.DisableSoftwareBreakpoint simProcess s A).2.proc.text x
            = if x = A then bp.data else s.proc.text x) ∧
    (∀ x, (Native.DisableSoftwareBreakpoint simProcess s A).2.software_breakpoints x
            = if x = A then some ⟨bp.data, false⟩ else s.software_breakpoints x) := by
  simp only [Native.DisableSoftwareBreakpoint, simProcess, h0, hbp, if_true,
             List.length_cons, List.length_nil, Nat.add_zero]
  simp only [Nat.zero_add, hA, if_true]
  refine ⟨by simp, by simp, ?_, ?_⟩
  · intro x
    by_cases hx : x = A
    · have hAA : A ≤ A ∧ A < A + 1 := by omega
      simp [hx, hAA, Nat.sub_self]
    · have hn : ¬ (A ≤ x ∧ x < A + 1) := by omega
      simp [hx, hn]
  · intro x
    by_cases hx : x = A <;> simp [updateBp, hx]

theorem sim_enable_ok (s : NState SimState) (A : Nat) (bp : SWBreakpoint)
    (h0 : s.software_breakpoints A = some bp) (hbp : bp.enabled = false)
    (hA : A + 1 ≤ s.proc.textLen) :
    (Native.EnableSoftwareBreakpoint simProcess s A).1 = .ok () ∧
    (Native.EnableSoftwareBreakpoint simProcess s A).2.proc.textLen
      = s.proc.textLen ∧
    (∀ x, (Native.EnableSoftwareBreakpoint simProcess s A).2.proc.text x
            = if x = A then trapOpcode else s.proc.text x) ∧
    (∀ x, (Native.EnableSoftwareBreakpoint simProcess s A).2.software_breakpoints x
            = if x = A then some ⟨s.proc.text A, true⟩ else s.software_breakpoints x) := by
  have hr1 : (List.range 1) = [0] := rfl
  simp only [Native.EnableSoftwareBreakpoint, Native.CreateSoftwareBreakpoint,
             simProcess, h0, hbp, Bool.not_false, if_true, hr1, List.map_cons,
             List.map_nil, List.head?_cons, List.length_cons, List.length_nil,
             Nat.add_zero, hA]
  have hAA : A ≤ A ∧ A < A + (0 + 1) := by omega
  simp only [hA, if_true, hAA, Nat.sub_self, List.getD_cons_zero, ne_eq,
             not_true_eq_false, if_false]
  refine ⟨by simp, by simp, ?_, ?_⟩
  · intro x
    by_cases hx : x = A
    · simp [hx, hAA, Nat.sub_self]
    · have hn : ¬ (A ≤ x ∧ x < A + (0 + 1)) := by omega
      simp [hx, hn]
  · intro x
    by_cases hx : x = A <;> simp [updateBp, hx]

theorem sim_write_ok (s : NState SimState) (A : Nat) (ws : List String)
    (hA : A + ws.length ≤ s.proc.textLen) :
    (Native.WriteText simProcess s A ws).1 = .ok () ∧
    (Native.WriteText simProcess s A ws).2.proc.textLen = s.proc.textLen ∧
    (∀ x, (Native.WriteText simProcess s A ws).2.proc.text x
            = if A ≤ x ∧ x < A + ws.length then
                (if (s.software_breakpoints x).isSome then trapOpcode
                 else ws.getD (x - A) (s.proc.text x))
              else s.proc.text x) ∧
    (∀ x, (Native.WriteText simProcess s A ws).2.software_breakpoints x
            = match s.software_breakpoints x with
              | some bp =>
                if A ≤ x ∧ x < A + ws.length then
                  some { bp with data := ws.getD (x - A) bp.data }
                else some bp
              | none => none) := by
  have hgt : ¬ (A + ws.length > Native.TextSize simProcess s) := by
    simp only [Native.TextSize, simProcess]
    omega
  unfold Native.WriteText
  rw [if_neg hgt]
  simp only [simProcess, markTraps_length]
  rw [if_pos hA]
  refine ⟨by simp, by simp, ?_, ?_⟩
  · intro x
    by_cases hx : A ≤ x ∧ x < A + ws.length
    · have hidx : x - A < ws.length := by omega
      have hAx : A + (x - A) = x := by omega
      have hmt := markTraps_getD s.software_breakpoints A ws (x - A) (s.proc.text x) hidx
      rw [hAx] at hmt
      simp only [List.getD_eq_getElem?_getD] at hmt
      simp [hx, hmt, List.getD_eq_getElem?_getD]
    · simp [hx]
  · intro x
    simp [rewriteBpData]

/-- `SetBreakpoint` when a record already exists: error, state
unchanged. -/
theorem sim_set_dup (s : NState SimState) (A : Nat)
    (h0 : (s.software_breakpoints A).isSome) :
    Native.SetBreakpoint simProcess s A
      = (.error (.debuggerError "Breakpoint is already set!"), s) := by
  simp [Native.SetBreakpoint, h0]

/-- `SetBreakpoint` out of range (fresh address): error, state
unchanged. -/
theorem sim_set_oob (s : NState SimState) (A : Nat)
    (h0 : s.software_breakpoints A = none) (hA : ¬ A + 1 ≤ s.proc.textLen) :
    (Native.SetBreakpoint simProcess s A).1
        = .error (.debuggerError "process: text read out of range") ∧
    (Native.SetBreakpoint simProcess s A).2 = s := by
  simp [Native.SetBreakpoint, Native.CreateSoftwareBreakpoint, simProcess, h0, hA]

/-- `DisableSoftwareBreakpoint` with no record: error, state
unchanged. -/
theorem sim_disable_none (s : NState SimState) (A : Nat)
    (h0 : s.software_breakpoints A = none) :
    Native.DisableSoftwareBreakpoint simProcess s A
      = (.error (.debuggerError "No breakpoint at address!"), s) := by
  simp [Native.DisableSoftwareBreakpoint, h0]

/-- `DisableSoftwareBreakpoint` on an already disabled record: no-op. -/
theorem sim_disable_noop (s : NState SimState) (A : Nat) (bp : SWBreakpoint)
    (h0 : s.software_breakpoints A = some bp) (hbp : bp.enabled = false) :
    Native.DisableSoftwareBreakpoint simProcess s A = (.ok (), s) := by
  simp [Native.DisableSoftwareBreakpoint, h0, hbp]

/-- `DisableSoftwareBreakpoint` on an enabled out-of-range record:
process write fails, state unchanged. -/
theorem sim_disable_oob (s : NState SimState) (A : Nat) (bp : SWBreakpoint)
    (h0 : s.software_breakpoints A = some bp) (hbp : bp.enabled = true)
    (hA : ¬ A + 1 ≤ s.proc.textLen) :
    (Native.DisableSoftwareBreakpoint simProcess s A).1
        = .error (.debuggerError "process: text write out of range") ∧
    (Native.DisableSoftwareBreakpoint simProcess s A).2 = s := by
  simp [Native.DisableSoftwareBreakpoint, simProcess, h0, hbp, hA]

/-- `EnableSoftwareBreakpoint` with no record: error, state unchanged. -/
theorem sim_enable_none (s : NState SimState) (A : Nat)
    (h0 : s.software_breakpoints A = none) :
    Native.EnableSoftwareBreakpoint simProcess s A
      = (.error (.debuggerError "No breakpoint at address!"), s) := by
  simp [Native.EnableSoftwareBreakpoint, h0]

/-- `EnableSoftwareBreakpoint` on an already enabled record: no-op. -/
theorem sim_enable_noop (s : NState SimState) (A : Nat) (bp : SWBreakpoint)
    (h0 : s.software_breakpoints A = some bp) (hbp : bp.enabled = true) :
    Native.EnableSoftwareBreakpoint simProcess s A = (.ok (), s) := by
  simp [Native.EnableSoftwareBreakpoint, h0, hbp]

/-- `EnableSoftwareBreakpoint` on a disabled out-of-range record:
process read fails, state unchanged. -/
theorem sim_enable_oob (s : NState SimState) (A : Nat) (bp : SWBreakpoint)
    (h0 : s.software_breakpoints A = some bp) (hbp : bp.enabled = false)
    (hA : ¬ A + 1 ≤ s.proc.textLen) :
    (Native.EnableSoftwareBreakpoint simProcess s A).1
        = .error (.debuggerError "process: text read out of range") ∧
    (Native.EnableSoftwareBreakpoint simProcess s A).2 = s := by
  simp [Native.EnableSoftwareBreakpoint, Native.CreateSoftwareBreakpoint,
        simProcess, h0, hbp, hA]

/-- `ReadText` never changes the state. -/
theorem sim_read_state {σ : Type} (P : Process σ) (s : NState σ) (a n : Nat) :
    (Native.ReadText P s a n).2 = s := by
  unfold Native.ReadText
  split
  · rfl
  · split <;> rfl

/-- `WriteText` out of range: error, state unchanged. -/
theorem sim_write_oob (s : NState SimState) (A : Nat) (ws : List String)
    (hA : ¬ A + ws.length ≤ s.proc.textLen) :
    (Native.WriteText simProcess s A ws).1
        = .error (.debuggerError "Writing text out of range") ∧
    (Native.WriteText simProcess s A ws).2 = s := by
  have : A + ws.length > Native.TextSize simProcess s := by
    simp only [Native.TextSize, simProcess]
    omega
  simp [Native.WriteText, this]


theorem c3_breakpoint_transparency (s : NState SimState) (A : Nat) (W : List String)
    (hA : A < s.proc.textLen)
    (hlen : A + W.length ≤ s.proc.textLen)
    (hfree : ∀ x, A ≤ x → x < A + W.length → s.software_breakpoints x = none)
    (hfreeA : s.software_breakpoints A = none) :
    (Native.SetBreakpoint simProcess s A).1 = .ok () ∧
    (Native.WriteText simProcess (Native.SetBreakpoint simProcess s A).2 A W).1
      = .ok () ∧
    (Native.ReadText simProcess
        (Native.WriteText simProcess (Native.SetBreakpoint simProcess s A).2 A W).2
        A W.length).1 = .ok W ∧
    (Native.UnsetBreakpoint simProcess
        (Native.WriteText simProcess (Native.SetBreakpoint simProcess s A).2 A W).2
        A).1 = .ok () ∧
    ∀ i, i < W.length →
      (Native.UnsetBreakpoint simProcess
          (Native.WriteText simProcess (Native.SetBreakpoint simProcess s A).2 A W).2
          A).2.proc.text (A + i) = W.getD i "" := by
  obtain ⟨e1ok, e1len, e1text, e1bps⟩ := sim_set_ok s A hfreeA (by omega)
  set s1 := (Native.SetBreakpoint simProcess s A).2 with hs1
  have hlen1 : A + W.length ≤ s1.proc.textLen := by rw [e1len]; exact hlen
  obtain ⟨e2ok, e2len, e2text, e2bps⟩ := sim_write_ok s1 A W hlen1
  set s2 := (Native.WriteText simProcess s1 A W).2 with hs2
  -- the record at A after the write
  have hbps2A : s2.software_breakpoints A
      = some ⟨if 0 < W.length then W.getD 0 (s.proc.text A) else s.proc.text A, true⟩ := by
    rw [e2bps A, e1bps A]
    by_cases hW : 0 < W.length
    · have hcond : A ≤ A ∧ A < A + W.length := by omega
      simp [hcond, hW, Nat.sub_self]
    · have hcond : ¬ (A ≤ A ∧ A < A + W.length) := by omega
      simp [hcond, hW]
  -- no record elsewhere in the written range after the write
  have hbps2in : ∀ i, 0 < i → i < W.length → s2.software_breakpoints (A + i) = none := by
    intro i h0 hi
    rw [e2bps (A + i), e1bps (A + i)]
    have hne : ¬ (A + i = A) := by omega
    have hn := hfree (A + i) (by omega) (by omega)
    simp [hne, hn]
  -- text in the written range after the write
  have htext2 : ∀ i, 0 < i → i < W.length →
      s2.proc.text (A + i) = W.getD i "" := by
    intro i h0 hi
    rw [e2text (A + i)]
    have hcond : A ≤ A + i ∧ A + i < A + W.length := by omega
    have hb1 : s1.software_breakpoints (A + i) = none := by
      rw [e1bps (A + i)]
      have hne : ¬ (A + i = A) := by omega
      simp [hne, hfree (A + i) (by omega) (by omega)]
    have hsub : A + i - A = i := by omega
    rw [if_pos hcond, hb1]
    simp only [Option.isSome_none, Bool.false_eq_true, if_false, hsub]
    rw [List.getD_eq_getElem _ _ hi, List.getD_eq_getElem _ _ hi]
  -- the ReadText result
  have hread : (Native.ReadText simProcess s2 A W.length).1 = .ok W := by
    have hgt : ¬ (A + W.length > Native.TextSize simProcess s2) := by
      simp only [Native.TextSize, simProcess]
      rw [e2len, e1len]
      omega
    unfold Native.ReadText
    rw [if_neg hgt]
    have hle2 : A + W.length ≤ s2.proc.textLen := by rw [e2len, e1len]; exact hlen
    simp only [simProcess, hle2, if_true]
    congr 1
    apply List.ext_getElem?
    intro i
    rw [substBreakpoints_getElem?, List.getElem?_map]
    by_cases hi : i < W.length
    · rw [List.getElem?_range hi, List.getElem?_eq_getElem hi]
      simp only [Option.map_some']
      congr 1
      by_cases h0 : i = 0
      · subst h0
        rw [Nat.add_zero, hbps2A]
        have hW : 0 < W.length := hi
        simp only [hW, if_true]
        rw [List.getD_eq_getElem _ _ hW]
      · rw [hbps2in i (by omega) hi]
        rw [htext2 i (by omega) hi]
        rw [List.getD_eq_getElem _ _ hi]
    · have hge : W.length ≤ i := by omega
      rw [List.getElem?_eq_none (by simpa using hge), List.getElem?_eq_none hge]
      simp
  -- the unset step
  have hA2 : A + 1 ≤ s2.proc.textLen := by rw [e2len, e1len]; omega
  obtain ⟨e3ok, e3len, e3text, e3bps⟩ :=
    sim_disable_ok s2 A _ hbps2A rfl hA2
  have hu : Native.UnsetBreakpoint simProcess s2 A
      = (.ok (), { (Native.DisableSoftwareBreakpoint simProcess s2 A).2 with
                   software_breakpoints :=
                     updateBp (Native.DisableSoftwareBreakpoint simProcess s2 A).2.software_breakpoints
                       A none }) := by
    have e3ok' := e3ok
    unfold Native.UnsetBreakpoint
    rcases hd : Native.DisableSoftwareBreakpoint simProcess s2 A with ⟨r, s3⟩
    rw [hd] at e3ok'
    have hr : r = .ok () := e3ok'
    subst hr
    rfl
  refine ⟨e1ok, e2ok, hread, ?_, ?_⟩
  · rw [hu]
  · intro i hi
    rw [hu]
    simp only
    rw [e3text (A + i)]
    by_cases h0 : i = 0
    · subst h0
      rw [Nat.add_zero]
      simp only [if_pos rfl]
      have hW : 0 < W.length := hi
      simp only [hW, if_true]
      rw [List.getD_eq_getElem _ _ hW, List.getD_eq_getElem _ _ hW]
    · have hne : ¬ (A + i = A) := by omega
      rw [if_neg hne]
      exact htext2 i (by omega) hi

theorem bpInvAt_none {t w : String} (h : t = w) : BpInvAt none t w := by
  constructor
  · intro _
    exact h
  · intro bp hbp
    cases hbp

theorem bpInvAt_enabled {d t w : String} (ht : t = trapOpcode) (hd : d = w) :
    BpInvAt (some ⟨d, true⟩) t w := by
  constructor
  · intro h
    cases h
  · intro bp hbp
    injection hbp with hbp
    subst hbp
    constructor
    · intro _
      exact ⟨ht, hd⟩
    · intro hfalse
      simp at hfalse

theorem bpInvAt_disabled {d t w : String} (ht : t = w) (hd : d = w) :
    BpInvAt (some ⟨d, false⟩) t w := by
  constructor
  · intro h
    cases h
  · intro bp hbp
    injection hbp with hbp
    subst hbp
    constructor
    · intro htrue
      simp at htrue
    · intro _
      exact ⟨ht, hd⟩

/-- `UnsetBreakpoint`'s state is `Disable`'s state, with the record
erased when `Disable` succeeded. -/
theorem sim_unset_state (s : NState SimState) (A : Nat) :
    (Native.UnsetBreakpoint simProcess s A).2
      = (match Native.DisableSoftwareBreakpoint simProcess s A with
         | (.error _, s1) => s1
         | (.ok _, s1) =>
           { s1 with software_breakpoints := updateBp s1.software_breakpoints A none }) := by
  unfold Native.UnsetBreakpoint
  rcases Native.DisableSoftwareBreakpoint simProcess s A with ⟨r, s1⟩
  cases r <;> rfl

/-- Every operation preserves the text size. -/
theorem textLen_applyOp (s : NState SimState) (op : NOp) :
    (applyOp s op).proc.textLen = s.proc.textLen := by
  cases op with
  | setBp a =>
    simp only [applyOp]
    by_cases h0 : (s.software_breakpoints a).isSome
    · rw [sim_set_dup s a h0]
    · have h0' : s.software_breakpoints a = none := by
        cases hh : s.software_breakpoints a
        · rfl
        · rw [hh] at h0
          simp at h0
      by_cases hA : a + 1 ≤ s.proc.textLen
      · exact (sim_set_ok s a h0' hA).2.1
      · rw [(sim_set_oob s a h0' hA).2]
  | unsetBp a =>
    simp only [applyOp]
    rw [sim_unset_state]
    cases hh : s.software_breakpoints a with
    | none => rw [sim_disable_none s a hh]
    | some bp =>
      cases hbe : bp.enabled
      · rw [sim_disable_noop s a bp hh hbe]
      · by_cases hA : a + 1 ≤ s.proc.textLen
        · obtain ⟨hr, hlen2, _, _⟩ := sim_disable_ok s a bp hh hbe hA
          rcases hd : Native.DisableSoftwareBreakpoint simProcess s a with ⟨r, s1⟩
          rw [hd] at hr hlen2
          have hrr : r = .ok () := hr
          subst hrr
          exact hlen2
        · obtain ⟨hr, hs⟩ := sim_disable_oob s a bp hh hbe hA
          rcases hd : Native.DisableSoftwareBreakpoint simProcess s a with ⟨r, s1⟩
          rw [hd] at hr hs
          have hrr : r = .error (.debuggerError "process: text write out of range") := hr
          subst hrr
          rw [show s1 = s from hs]
  | enableBp a =>
    simp only [applyOp]
    cases hh : s.software_breakpoints a with
    | none => rw [sim_enable_none s a hh]
    | some bp =>
      cases hbe : bp.enabled
      · by_cases hA : a + 1 ≤ s.proc.textLen
        · exact (sim_enable_ok s a bp hh hbe hA).2.1
        · rw [(sim_enable_oob s a bp hh hbe hA).2]
      · rw [sim_enable_noop s a bp hh hbe]
  | disableBp a =>
    simp only [applyOp]
    cases hh : s.software_breakpoints a with
    | none => rw [sim_disable_none s a hh]
    | some bp =>
      cases hbe : bp.enabled
      · rw [sim_disable_noop s a bp hh hbe]
      · by_cases hA : a + 1 ≤ s.proc.textLen
        · exact (sim_disable_ok s a bp hh hbe hA).2.1
        · rw [(sim_disable_oob s a bp hh hbe hA).2]
  | readTextOp a n =>
    simp only [applyOp]
    rw [sim_read_state]
  | writeTextOp a ws =>
    simp only [applyOp]
    by_cases hA : a + ws.length ≤ s.proc.textLen
    · exact (sim_write_ok s a ws hA).2.1
    · rw [(sim_write_oob s a ws hA).2]

/-- One operation preserves the breakpoint invariant, provided a
`WriteText` never covers a disabled breakpoint. -/
theorem bpinv_applyOp (s : NState SimState) (g : Nat → String) (op : NOp)
    (hinv : BpInv s g) (hgood : GoodOp s op) :
    BpInv (applyOp s op) (ghostApply s.proc.textLen g op) := by
  cases op with
  | setBp a =>
    simp only [applyOp, ghostApply]
    by_cases h0 : (s.software_breakpoints a).isSome
    · rw [sim_set_dup s a h0]
      exact hinv
    · have h0' : s.software_breakpoints a = none := by
        cases hh : s.software_breakpoints a
        · rfl
        · rw [hh] at h0
          simp at h0
      by_cases hA : a + 1 ≤ s.proc.textLen
      · obtain ⟨_, elen, etext, ebps⟩ := sim_set_ok s a h0' hA
        intro x hx
        rw [elen] at hx
        rw [etext x, ebps x]
        by_cases hxa : x = a
        · subst hxa
          rw [if_pos rfl, if_pos rfl]
          exact bpInvAt_enabled rfl ((hinv x hx).1 h0')
        · rw [if_neg hxa, if_neg hxa]
          exact hinv x hx
      · rw [(sim_set_oob s a h0' hA).2]
        exact hinv
  | unsetBp a =>
    simp only [applyOp, ghostApply]
    rw [sim_unset_state]
    cases hh : s.software_breakpoints a with
    | none =>
      rw [sim_disable_none s a hh]
      exact hinv
    | some bp =>
      cases hbe : bp.enabled
      · rw [sim_disable_noop s a bp hh hbe]
        intro x hx
        dsimp only at hx ⊢
        by_cases hxa : x = a
        · subst hxa
          simp only [updateBp, if_pos rfl]
          have hd := ((hinv x hx).2 bp hh).2 hbe
          exact bpInvAt_none hd.1
        · simp only [updateBp, if_neg hxa]
          exact hinv x hx
      · by_cases hA : a + 1 ≤ s.proc.textLen
        · obtain ⟨hr, elen, etext, ebps⟩ := sim_disable_ok s a bp hh hbe hA
          rcases hd : Native.DisableSoftwareBreakpoint simProcess s a with ⟨r, s1⟩
          rw [hd] at hr elen etext ebps
          have hrr : r = .ok () := hr
          subst hrr
          dsimp only
          intro x hx
          dsimp only at hx ⊢
          rw [elen] at hx
          rw [etext x]
          by_cases hxa : x = a
          · subst hxa
            simp only [updateBp, if_pos rfl]
            have he := ((hinv x hx).2 bp hh).1 hbe
            exact bpInvAt_none he.2
          · simp only [updateBp, if_neg hxa]
            rw [ebps x, if_neg hxa]
            exact hinv x hx
        · obtain ⟨hr, hs⟩ := sim_disable_oob s a bp hh hbe hA
          rcases hd : Native.DisableSoftwareBreakpoint simProcess s a with ⟨r, s1⟩
          rw [hd] at hr hs
          have hrr : r = .error (.debuggerError "process: text write out of range") := hr
          subst hrr
          rw [show s1 = s from hs]
          exact hinv
  | enableBp a =>
    simp only [applyOp, ghostApply]
    cases hh : s.software_breakpoints a with
    | none =>
      rw [sim_enable_none s a hh]
      exact hinv
    | some bp =>
      cases hbe : bp.enabled
      · by_cases hA : a + 1 ≤ s.proc.textLen
        · obtain ⟨_, elen, etext, ebps⟩ := sim_enable_ok s a bp hh hbe hA
          intro x hx
          rw [elen] at hx
          rw [etext x, ebps x]
          by_cases hxa : x = a
          · subst hxa
            rw [if_pos rfl, if_pos rfl]
            have hd := ((hinv x hx).2 bp hh).2 hbe
            exact bpInvAt_enabled rfl hd.1
          · rw [if_neg hxa, if_neg hxa]
            exact hinv x hx
        · rw [(sim_enable_oob s a bp hh hbe hA).2]
          exact hinv
      · rw [sim_enable_noop s a bp hh hbe]
        exact hinv
  | disableBp a =>
    simp only [applyOp, ghostApply]
    cases hh : s.software_breakpoints a with
    | none =>
      rw [sim_disable_none s a hh]
      exact hinv
    | some bp =>
      cases hbe : bp.enabled
      · rw [sim_disable_noop s a bp hh hbe]
        exact hinv
      · by_cases hA : a + 1 ≤ s.proc.textLen
        · obtain ⟨_, elen, etext, ebps⟩ := sim_disable_ok s a bp hh hbe hA
          intro x hx
          rw [elen] at hx
          rw [etext x, ebps x]
          by_cases hxa : x = a
          · subst hxa
            rw [if_pos rfl, if_pos rfl]
            have he := ((hinv x hx).2 bp hh).1 hbe
            exact bpInvAt_disabled he.2 he.2
          · rw [if_neg hxa, if_neg hxa]
            exact hinv x hx
        · rw [(sim_disable_oob s a bp hh hbe hA).2]
          exact hinv
  | readTextOp a n =>
    simp only [applyOp, ghostApply]
    rw [sim_read_state]
    exact hinv
  | writeTextOp a ws =>
    simp only [applyOp, ghostApply]
    by_cases hA : a + ws.length ≤ s.proc.textLen
    · rw [if_pos hA]
      obtain ⟨_, elen, etext, ebps⟩ := sim_write_ok s a ws hA
      intro x hx
      rw [elen] at hx
      rw [etext x, ebps x]
      dsimp only
      by_cases hxr : a ≤ x ∧ x < a + ws.length
      · have hidx : x - a < ws.length := by omega
        simp only [hxr, and_self, if_true]
        cases hbx : s.software_breakpoints x with
        | none =>
          simp only [hbx, Option.isSome_none, Bool.false_eq_true, if_false]
          apply bpInvAt_none
          have hw := (hinv x hx).1 hbx
          rw [List.getD_eq_getElem _ _ hidx, List.getD_eq_getElem _ _ hidx]
        | some bp =>
          have hen : bp.enabled = true := hgood x hxr.1 hxr.2 bp hbx
          simp only [hbx, Option.isSome_some, if_true]
          rw [hen]
          apply bpInvAt_enabled rfl
          rw [List.getD_eq_getElem _ _ hidx, List.getD_eq_getElem _ _ hidx]
      · simp only [hxr, if_false]
        cases hbx : s.software_breakpoints x with
        | none =>
          simp only [hbx]
          have := hinv x hx
          rw [hbx] at this
          exact this
        | some bp =>
          simp only [hbx, if_false]
          have := hinv x hx
          rw [hbx] at this
          exact this
    · rw [if_neg hA, (sim_write_oob s a ws hA).2]
      exact hinv

/-- C2 (amended): the breakpoint invariant — enabled record ⇒ trap
installed and saved opcode = the program's intended word (the original
word, or the word most recently written through `WriteText`); disabled
record ⇒ debuggee and record hold the intended word — is preserved by
every sequence of `SetBreakpoint` / `UnsetBreakpoint` / `Enable` /
`Disable` / `ReadText` / `WriteText` operations in which no `WriteText`
covers an address holding a currently disabled breakpoint.  (The saved
opcode may equal the trap opcode when the program's own word is the trap
opcode; without the side condition the invariant fails, see the
counterexample.) -/
theorem c2_breakpoint_invariant_preserved (s : NState SimState)
    (g : Nat → String) (ops : List NOp)
    (hinv : BpInv s g) (hgood : GoodRun s ops) :
    BpInv (runOps s ops) (runGhost s.proc.textLen g ops) := by
  induction ops generalizing s g with
  | nil => exact hinv
  | cons op rest ih =>
    obtain ⟨hg1, hg2⟩ := hgood
    have h1 := bpinv_applyOp s g op hinv hg1
    have hlen := textLen_applyOp s op
    simp only [runOps, runGhost]
    have h2 := ih (applyOp s op) (ghostApply s.proc.textLen g op) h1 hg2
    rw [hlen] at h2
    exact h2

/-- C2 witness: the preservation theorem applied to the one-word
debuggee with the run `[SetBreakpoint 0]`. -/
theorem c2_breakpoint_invariant_preserved_witness :
    BpInv natOneWordX (fun _ => "X") ∧
    GoodRun natOneWordX [.setBp 0] ∧
    BpInv (runOps natOneWordX [.setBp 0])
      (runGhost natOneWordX.proc.textLen (fun _ => "X") [.setBp 0]) := by
  have hinv : BpInv natOneWordX (fun _ => "X") := by
    intro a _
    exact bpInvAt_none rfl
  have hgood : GoodRun natOneWordX [.setBp 0] := ⟨trivial, trivial⟩
  exact ⟨hinv, hgood,
         c2_breakpoint_invariant_preserved natOneWordX (fun _ => "X") [.setBp 0] hinv hgood⟩

/-- C3 witness: the transparency theorem applied at address 0 with the
word sequence `["X", "Y"]` on a breakpoint-free three-word debuggee. -/
theorem c3_breakpoint_transparency_witness :
    (0 : Nat) < natThreeNops.proc.textLen ∧
    0 + (["X", "Y"] : List String).length ≤ natThreeNops.proc.textLen ∧
    (Native.ReadText simProcess
        (Native.WriteText simProcess
          (Native.SetBreakpoint simProcess natThreeNops 0).2 0 ["X", "Y"]).2
        0 (["X", "Y"] : List String).length).1 = .ok ["X", "Y"] :=
  ⟨by decide, by decide,
   (c3_breakpoint_transparency natThreeNops 0 ["X", "Y"] (by decide) (by decide)
      (fun _ _ _ => rfl) rfl).2.2.1⟩

/-! ## Lexing of decimal literals (used for the data-section claims) -/

theorem takeWhile_all {p : Char → Bool} (l : List Char)
    (h : ∀ c ∈ l, p c = true) : l.takeWhile p = l := by
  induction l with
  | nil => rfl
  | cons c t ih =>
    have hc : p c = true := h c (by simp)
    have ht := ih (fun x hx => h x (by simp [hx]))
    simp [List.takeWhile_cons, hc, ht]

theorem digit_ne_char {c : Char} (e : Char) (h : isDigitC c = true)
    (he : isDigitC e = false) : c ≠ e := by
  intro hc
  subst hc
  rw [h] at he
  cases he

theorem digit_not_space {c : Char} (h : isDigitC c = true) : isSpaceC c = false := by
  have hn : 48 ≤ c.toNat ∧ c.toNat ≤ 57 := by simpa [isDigitC] using h
  simp only [isSpaceC, Bool.or_eq_false_iff, decide_eq_false_iff_not]
  refine ⟨⟨⟨⟨⟨?_, ?_⟩, ?_⟩, ?_⟩, ?_⟩, ?_⟩ <;>
    (intro hc; subst hc; revert hn; decide)

/-- The `ParseNumber` scan consumes an all-digit remainder of the input
and stops at end of stream. -/
theorem parseNumberScan_digits (ds : List Char) (fuel : Nat) (st : LexState)
    (num : List Char) (isf : Bool)
    (hds : ∀ c ∈ ds, isDigitC c = true) (hin : st.input = ds)
    (hlk : st.lookahead ≠ some '\n') (hf : ds.length + 1 ≤ fuel) :
    Lexer.parseNumberScanF fuel st num isf
      = .ok ({ st with input := [], lookahead := none, col := st.col + ds.length + 1 }, num ++ ds, isf) := by
  induction ds generalizing st num fuel with
  | nil =>
    cases fuel with
    | zero => omega
    | succ f =>
      simp only [Lexer.parseNumberScanF, Lexer.getChar, if_neg hlk, hin,
                 List.head?_nil, List.tail_nil, List.length_nil,
                 List.append_nil, Nat.add_zero]
  | cons c ds' ih =>
    cases fuel with
    | zero => omega
    | succ f =>
      have hlen : (c :: ds').length = ds'.length + 1 := by simp
      have hc : isDigitC c = true := hds c (by simp)
      have hcdot : ¬ (c = '.') := digit_ne_char '.' hc (by decide)
      simp only [Lexer.parseNumberScanF, Lexer.getChar, if_neg hlk, hin,
                 List.head?_cons, List.tail_cons]
      rw [if_neg hcdot, if_pos hc]
      have hrec := ih f ({ st with row := st.row, col := st.col + 1, lookahead := some c, input := ds' })
        (num ++ [c])
        (fun x hx => hds x (by simp [hx])) rfl
        (by
          intro hcn
          injection hcn with hcn
          exact digit_ne_char '\n' hc (by decide) hcn)
        (by omega)
      rw [hrec]
      simp only [List.append_assoc, List.singleton_append, List.length_cons]
      rw [show st.col + 1 + ds'.length + 1 = st.col + (ds'.length + 1) + 1 from by omega]

theorem stoiModel_digits (d : Char) (ds : List Char)
    (hd : isDigitC d = true) (hds : ∀ c ∈ ds, isDigitC c = true) :
    stoiModel (d :: ds)
      = if (2147483647 : Int) < (decValue (d :: ds) : Int) then .error .stoiOutOfRange
        else .ok (decValue (d :: ds)) := by
  have hsp : isSpaceC d = false := digit_not_space hd
  have hminus : d ≠ '-' := digit_ne_char '-' hd (by decide)
  have hplus : d ≠ '+' := digit_ne_char '+' hd (by decide)
  have htake : (d :: ds).takeWhile isDigitC = d :: ds := by
    apply takeWhile_all
    intro c hc
    rcases List.mem_cons.mp hc with h | h
    · subst h
      exact hd
    · exact hds c h
  have h1 : ¬ ((d :: ds).head? = some '-') := by
    simp only [List.head?_cons, Option.some.injEq]
    exact hminus
  have h2 : ¬ ((d :: ds).head? = some '-' ∨ (d :: ds).head? = some '+') := by
    simp only [List.head?_cons, Option.some.injEq]
    rintro (h | h)
    · exact hminus h
    · exact hplus h
  have hnonneg : ¬ ((1 : Int) * (decValue (d :: ds) : Int) < -2147483648) := by
    have := Int.natCast_nonneg (decValue (d :: ds))
    omega
  simp only [stoiModel, List.dropWhile_cons, hsp, Bool.false_eq_true, if_false,
             if_neg h1, if_neg h2, htake, List.cons_ne_nil, if_false, one_mul,
             hnonneg, false_or]
  have hA : ¬ ((decValue (d :: ds) : Int) < -2147483648) := by
    have := Int.natCast_nonneg (decValue (d :: ds))
    omega
  simp [hA]

theorem lexNumber_digits (d : Char) (ds : List Char) (st : LexState) (fuel : Nat)
    (hd : isDigitC d = true) (hds : ∀ c ∈ ds, isDigitC c = true)
    (hlk : st.lookahead = some d) (hin : st.input = ds) (hf : ds.length + 2 ≤ fuel) :
    (decValue (d :: ds) ≤ 2147483647 →
       ∃ lex1, Lexer.getNextF fuel st = .ok (⟨.NUM, st.row, st.col⟩, lex1) ∧
               lex1.number = (decValue (d :: ds) : Int)) ∧
    (2147483647 < decValue (d :: ds) →
       Lexer.getNextF fuel st = .error .stoiOutOfRange) := by
  cases fuel with
  | zero => omega
  | succ f =>
  have hne : ∀ e : Char, isDigitC e = false → ¬ (d = e) := fun e he =>
    digit_ne_char e hd he
  have hstep : Lexer.getNextF (f + 1) st
      = match Lexer.parseNumberF (f + 1) (Lexer.recordTokLoc st) with
        | .error e => .error e
        | .ok (k, st1) => .ok (Lexer.makeToken k st1, st1) := by
    simp only [Lexer.getNextF, Lexer.recordTokLoc, hlk, Option.some.injEq,
               Option.map_some', Option.getD_some, digit_not_space hd,
               Bool.false_eq_true, if_false,
               if_neg (hne '#' (by decide)), if_neg (hne ';' (by decide)),
               if_neg (hne ',' (by decide)), if_neg (hne '[' (by decide)),
               if_neg (hne ']' (by decide)), if_neg (hne '+' (by decide)),
               if_neg (hne '*' (by decide)), if_neg (hne '.' (by decide)),
               if_neg (hne '"' (by decide)), hd, Bool.true_or, if_true]
  have hscan := parseNumberScan_digits ds (f + 1) (Lexer.recordTokLoc st) [d] false
    hds (by simp [Lexer.recordTokLoc, hin])
    (by
      rw [show (Lexer.recordTokLoc st).lookahead = st.lookahead from rfl, hlk]
      intro h
      injection h with h
      exact hne '\n' (by decide) h)
    (by omega)
  have hpn : Lexer.parseNumberF (f + 1) (Lexer.recordTokLoc st)
      = match stoiModel (d :: ds) with
        | .error e => .error e
        | .ok v => .ok (.NUM, { Lexer.recordTokLoc st with input := [], lookahead := none, col := (Lexer.recordTokLoc st).col + ds.length + 1, number := 1 * v }) := by
    simp only [Lexer.parseNumberF, Lexer.recordTokLoc, hlk, Option.some.injEq,
               if_neg (hne '-' (by decide))]
    simp only [Lexer.recordTokLoc, hlk] at hscan
    rw [hscan]
    simp only [List.singleton_append, Bool.false_eq_true, if_false]
  constructor
  · intro hle
    have hsv : stoiModel (d :: ds) = .ok (decValue (d :: ds)) := by
      rw [stoiModel_digits d ds hd hds, if_neg (by omega)]
    refine ⟨{ Lexer.recordTokLoc st with input := [], lookahead := none, col := (Lexer.recordTokLoc st).col + ds.length + 1, number := 1 * (decValue (d :: ds) : Int) }, ?_, ?_⟩
    · rw [hstep, hpn, hsv]
      simp [Lexer.makeToken, Lexer.recordTokLoc]
    · simp
  · intro hgt
    have hsv : stoiModel (d :: ds) = .error .stoiOutOfRange := by
      rw [stoiModel_digits d ds hd hds, if_pos (by omega)]
    rw [hstep, hpn, hsv]

/-- C7 (amended): data-section numeric literals are parsed by
`std::stoi` into a C `int`, so only values of magnitude at most
2147483647 are supported, not the full 64-bit signed range: lexing any
digit string whose value fits in `int` yields a `NUM` token carrying
that value (which `Parser::Data` appends to the 64-bit data section),
and lexing any digit string whose value exceeds `int` raises
`std::out_of_range`; at the parser level the `int` boundary literals are
accepted into the data section while 2147483648 is rejected. -/
theorem c7_data_literals_amended :
    (∀ (d : Char) (ds : List Char) (st : LexState) (fuel : Nat),
       isDigitC d = true → (∀ c ∈ ds, isDigitC c = true) →
       st.lookahead = some d → st.input = ds → ds.length + 2 ≤ fuel →
       (decValue (d :: ds) ≤ 2147483647 →
          ∃ lex1, Lexer.getNextF fuel st = .ok (⟨.NUM, st.row, st.col⟩, lex1) ∧
                  lex1.number = (decValue (d :: ds) : Int)) ∧
       (2147483647 < decValue (d :: ds) →
          Lexer.getNextF fuel st = .error .stoiOutOfRange)) ∧
    parseProgram ".data 2147483647" = .ok ⟨[], [2147483647]⟩ ∧
    parseProgram ".data -2147483647" = .ok ⟨[], [-2147483647]⟩ ∧
    parseProgram ".data 2147483648" = .error .stoiOutOfRange :=
  ⟨fun d ds st fuel h1 h2 h3 h4 h5 => lexNumber_digits d ds st fuel h1 h2 h3 h4 h5,
   rfl, rfl, rfl⟩

/-- C7 witness: the amended theorem's lexing part applied to the digit
string `42` at a concrete lexer state. -/
theorem c7_data_literals_amended_witness :
    decValue ['4', '2'] ≤ 2147483647 ∧
    (∃ lex1,
       Lexer.getNextF 4 { input := ['2'], lookahead := some '4', row := 0, col := 0, tok_row := 0, tok_col := 0, number := -1, float_lit := [], id := "", str := "" }
         = .ok (⟨.NUM, 0, 0⟩, lex1) ∧
       lex1.number = (decValue ['4', '2'] : Int)) :=
  ⟨by decide,
   (c7_data_literals_amended.1 '4' ['2']
      { input := ['2'], lookahead := some '4', row := 0, col := 0, tok_row := 0, tok_col := 0, number := -1, float_lit := [], id := "", str := "" }
      4 (by decide) (by decide) rfl rfl (by decide)).1 (by decide)⟩
